import Mathlib

/-!
Verification of the core physics / weapon / card model of the
`rounds_model` repository (a small 2D arena-shooter).

Numbers are embedded as exact rationals (`ℚ`): the Python source uses
IEEE-754 floats, but every claim checked here concerns control flow,
field restoration, and order relations whose truth is unchanged by the
exact-arithmetic reading.  Where the source calls `math.sqrt` the
embedding keeps the square root abstract (see `Vector2.normalizeWith`).
-/

namespace RoundsModel

/-- Python's `int(x)` applied to a float: truncation toward zero. -/
def pyInt (q : ℚ) : ℤ :=
  if 0 ≤ q then ⌊q⌋ else -⌊-q⌋

/-! ## Vector2  (src/systems/physics_system.py, class Vector2) -/

/-- `Vector2` from `physics_system.py`: a pair of coordinates. -/
structure Vector2 where
  x : ℚ
  y : ℚ
deriving DecidableEq

namespace Vector2

/-- `__add__`. -/
def add (v w : Vector2) : Vector2 := ⟨v.x + w.x, v.y + w.y⟩

/-- `__sub__`. -/
def sub (v w : Vector2) : Vector2 := ⟨v.x - w.x, v.y - w.y⟩

/-- `__mul__` (scalar multiplication). -/
def smul (v : Vector2) (scalar : ℚ) : Vector2 := ⟨v.x * scalar, v.y * scalar⟩

/-- `__truediv__`: componentwise division, but `Vector2(0, 0)` when the
scalar is zero (the source guards `if scalar != 0`). -/
def truediv (v : Vector2) (scalar : ℚ) : Vector2 :=
  if scalar ≠ 0 then ⟨v.x / scalar, v.y / scalar⟩ else ⟨0, 0⟩

/-- `length_squared`. -/
def length_squared (v : Vector2) : ℚ := v.x * v.x + v.y * v.y

/-- `dot`. -/
def dot (v w : Vector2) : ℚ := v.x * w.x + v.y * w.y

/-- `normalize`, with the square root left abstract: the source computes
`length = math.sqrt(x*x + y*y)` and returns `Vector2(0, 0)` when
`length == 0`, otherwise divides both components by `length`.  Any
function with `sqrt 0 = 0` (true of `math.sqrt`) instantiates the
parameter. -/
def normalizeWith (sqrt : ℚ → ℚ) (v : Vector2) : Vector2 :=
  let length := sqrt (v.x * v.x + v.y * v.y)
  if length = 0 then ⟨0, 0⟩ else ⟨v.x / length, v.y / length⟩

/-- Componentwise negation (used only to state normal-flipping claims). -/
def neg (v : Vector2) : Vector2 := ⟨-v.x, -v.y⟩

end Vector2

/-! ## PhysicsBody  (src/systems/physics_system.py, class PhysicsBody) -/

/-- Mutable state of a `PhysicsBody`. -/
structure PhysicsBody where
  position : Vector2
  velocity : Vector2
  acceleration : Vector2
  width : ℚ
  height : ℚ
  mass : ℚ
  friction : ℚ
  restitution : ℚ
  is_static : Bool
  is_grounded : Bool
  affected_by_gravity : Bool
  collision_layer : ℕ
  collision_mask : ℕ
  is_trigger : Bool
  last_position : Vector2
  needs_update : Bool
  sleep_threshold : ℚ
  is_sleeping : Bool
deriving DecidableEq

namespace PhysicsBody

/-- `PhysicsBody.__init__(x, y, width, height)`: note that `mass` is not a
parameter — it is unconditionally initialised to `1.0` and no validation
of any kind is performed. -/
def init (x y width height : ℚ) : PhysicsBody where
  position := ⟨x, y⟩
  velocity := ⟨0, 0⟩
  acceleration := ⟨0, 0⟩
  width := width
  height := height
  mass := 1
  friction := 95 / 100
  restitution := 3 / 10
  is_static := false
  is_grounded := false
  affected_by_gravity := true
  collision_layer := 0
  collision_mask := 0xFFFFFFFF
  is_trigger := false
  last_position := ⟨x, y⟩
  needs_update := true
  sleep_threshold := 1 / 10
  is_sleeping := false

/-- `wake_up`. -/
def wake_up (b : PhysicsBody) : PhysicsBody :=
  { b with is_sleeping := false, needs_update := true }

/-- `can_sleep`: not static, and both squared magnitudes strictly below
the sleep threshold. -/
def can_sleep (b : PhysicsBody) : Prop :=
  b.is_static = false ∧
  b.velocity.length_squared < b.sleep_threshold ∧
  b.acceleration.length_squared < b.sleep_threshold

instance (b : PhysicsBody) : Decidable b.can_sleep := by
  unfold can_sleep; infer_instance

end PhysicsBody

/-! ## PhysicsSystem  (src/systems/physics_system.py, class PhysicsSystem)

The system's mutable state is its `bodies` list; `update(dt)` integrates
awake bodies, runs broad-phase spatial hashing, narrow-phase AABB tests,
and resolves the collisions.  `gravity = Vector2(0, config.gravity)` and
the hash cell size is the constant 64. -/

namespace PhysicsSystem

/-- `hash_cell_size = 64`. -/
def hash_cell_size : ℚ := 64

/-- `_update_body`: integration of one body (static bodies return
unchanged). -/
def update_body (gravity : Vector2) (dt : ℚ) (body : PhysicsBody) : PhysicsBody :=
  if body.is_static then body
  else
    let acceleration :=
      if body.affected_by_gravity then body.acceleration.add gravity
      else body.acceleration
    let velocity := body.velocity.add (acceleration.smul dt)
    let velocity :=
      if body.is_grounded then ⟨velocity.x * body.friction, velocity.y⟩ else velocity
    let last_position := body.position
    let position := body.position.add (velocity.smul dt)
    let position_change := (position.sub last_position).length_squared
    { body with
      acceleration := ⟨0, 0⟩
      velocity := velocity
      position := position
      last_position := last_position
      needs_update := decide (position_change > 1 / 100) }

/-- One iteration of the integration loop in `update`: sleeping bodies
are skipped; an integrated body that `can_sleep` is put to sleep. -/
def step_body (gravity : Vector2) (dt : ℚ) (body : PhysicsBody) : PhysicsBody :=
  if body.is_sleeping then body
  else
    let b := update_body gravity dt body
    if b.can_sleep then { b with is_sleeping := true } else b

/-- `_get_hash_coordinates`: the grid cells overlapped by the body's
AABB.  Python's `int(q // 64)` on floats is the floor. -/
def get_hash_coordinates (body : PhysicsBody) : List (ℤ × ℤ) :=
  let min_x := ⌊(body.position.x - body.width / 2) / hash_cell_size⌋
  let max_x := ⌊(body.position.x + body.width / 2) / hash_cell_size⌋
  let min_y := ⌊(body.position.y - body.height / 2) / hash_cell_size⌋
  let max_y := ⌊(body.position.y + body.height / 2) / hash_cell_size⌋
  ((List.range (max_x - min_x + 1).toNat).map fun k => min_x + k).flatMap fun x =>
    (List.range (max_y - min_y + 1).toNat).map fun k => (x, min_y + k)

/-- `_can_collide`: the two-sided layer/mask bit test. -/
def can_collide (body_a body_b : PhysicsBody) : Prop :=
  body_a.collision_mask &&& (1 <<< body_b.collision_layer) ≠ 0 ∧
  body_b.collision_mask &&& (1 <<< body_a.collision_layer) ≠ 0

instance (a b : PhysicsBody) : Decidable (can_collide a b) := by
  unfold can_collide; infer_instance

/-- Appending an `(index, body)` entry to one cell of the spatial hash
(Python dict keyed by the cell coordinate, insertion-ordered). -/
def hashInsert (h : List ((ℤ × ℤ) × List (ℕ × PhysicsBody)))
    (coord : ℤ × ℤ) (entry : ℕ × PhysicsBody) :
    List ((ℤ × ℤ) × List (ℕ × PhysicsBody)) :=
  match h with
  | [] => [(coord, [entry])]
  | (c, l) :: t =>
      if c = coord then (c, l ++ [entry]) :: t
      else (c, l) :: hashInsert t coord entry

/-- First half of `_broad_phase_collision_detection`: bucket every
awake, non-static body (with its index) into each cell it overlaps. -/
def build_spatial_hash (bodies : List PhysicsBody) :
    List ((ℤ × ℤ) × List (ℕ × PhysicsBody)) :=
  bodies.enum.foldl
    (fun h entry =>
      if entry.2.is_sleeping || entry.2.is_static then h
      else (get_hash_coordinates entry.2).foldl
        (fun h2 coord => hashInsert h2 coord entry) h)
    []

/-- All ordered pairs of entries within one cell (`i` before `j` in the
cell's list, matching the nested-index loops of the source). -/
def cellPairs : List (ℕ × PhysicsBody) →
    List ((ℕ × PhysicsBody) × (ℕ × PhysicsBody))
  | [] => []
  | e :: t => (t.map fun e2 => (e, e2)) ++ cellPairs t

/-- Adding a normalized pair to the accumulated pair collection
(modelling `set.add`: kept once, first-insertion order). -/
def insertPair (acc : List (ℕ × ℕ)) (p : ℕ × ℕ) : List (ℕ × ℕ) :=
  if p ∈ acc then acc else acc ++ [p]

/-- Second half of `_broad_phase_collision_detection`: for every pair
sharing a cell whose masks allow a collision, record the normalized
`(min idx, max idx)` pair. -/
def broad_phase_collision_pairs (bodies : List PhysicsBody) : List (ℕ × ℕ) :=
  let h := build_spatial_hash bodies
  let candidates :=
    (h.map fun cell =>
      (cellPairs cell.2).filter fun pp => decide (can_collide pp.1.2 pp.2.2)).flatten
  candidates.foldl
    (fun acc pp => insertPair acc (min pp.1.1 pp.2.1, max pp.1.1 pp.2.1)) []

/-- `_check_aabb_collision`: exact AABB overlap test; on intersection,
the axis of minimum penetration gives the unit normal and depth. -/
def check_aabb_collision (body_a body_b : PhysicsBody) : Option (Vector2 × ℚ) :=
  let a_left := body_a.position.x - body_a.width / 2
  let a_right := body_a.position.x + body_a.width / 2
  let a_top := body_a.position.y - body_a.height / 2
  let a_bottom := body_a.position.y + body_a.height / 2
  let b_left := body_b.position.x - body_b.width / 2
  let b_right := body_b.position.x + body_b.width / 2
  let b_top := body_b.position.y - body_b.height / 2
  let b_bottom := body_b.position.y + body_b.height / 2
  if a_right > b_left ∧ a_left < b_right ∧ a_bottom > b_top ∧ a_top < b_bottom then
    let overlap_x := min (a_right - b_left) (b_right - a_left)
    let overlap_y := min (a_bottom - b_top) (b_bottom - a_top)
    if overlap_x < overlap_y then
      some (⟨if a_left < b_left then -1 else 1, 0⟩, overlap_x)
    else
      some (⟨0, if a_top < b_top then -1 else 1⟩, overlap_y)
  else
    none

/-- `CollisionInfo`, with the body references of the source replaced by
indices into the system's body list. -/
structure CollisionInfo where
  idx_a : ℕ
  idx_b : ℕ
  normal : Vector2
  penetration : ℚ
deriving DecidableEq

/-- `_narrow_phase_collision_detection`: run the AABB check on every
broad-phase pair whose indices are in range. -/
def narrow_phase (bodies : List PhysicsBody) (pairs : List (ℕ × ℕ)) :
    List CollisionInfo :=
  pairs.filterMap fun p =>
    match bodies.get? p.1, bodies.get? p.2 with
    | some a, some b =>
        (check_aabb_collision a b).map fun np => ⟨p.1, p.2, np.1, np.2⟩
    | _, _ => none

/-- The positional-correction block of `_resolve_collision`: split the
penetration between two dynamic bodies, or push a single dynamic body
out fully. -/
def positional_correction (body_a body_b : PhysicsBody) (normal : Vector2)
    (penetration : ℚ) : PhysicsBody × PhysicsBody :=
  if body_a.is_static = false ∧ body_b.is_static = false then
    let correction := normal.smul (penetration / 2)
    ({ body_a with position := body_a.position.sub correction },
     { body_b with position := body_b.position.add correction })
  else if body_a.is_static = false then
    let correction := normal.smul penetration
    ({ body_a with position := body_a.position.sub correction }, body_b)
  else if body_b.is_static = false then
    let correction := normal.smul penetration
    (body_a, { body_b with position := body_b.position.add correction })
  else
    (body_a, body_b)

/-- The velocity-correction block of `_resolve_collision` (elastic
collision, impulse weighted by inverse masses).  `mass` is `1.0` for
every constructed body; a zero mass would raise `ZeroDivisionError` at
`1/mass` in Python — that error path is modelled separately by
`velocity_correction`. -/
def velocity_response (body_a body_b : PhysicsBody) (normal : Vector2) :
    PhysicsBody × PhysicsBody :=
  if body_a.is_static = false ∧ body_b.is_static = false then
    let relative_velocity := body_a.velocity.sub body_b.velocity
    let velocity_along_normal := relative_velocity.dot normal
    if velocity_along_normal > 0 then (body_a, body_b)
    else
      let restitution := min body_a.restitution body_b.restitution
      let impulse_magnitude :=
        (-(1 + restitution) * velocity_along_normal) /
          (1 / body_a.mass + 1 / body_b.mass)
      let impulse := normal.smul impulse_magnitude
      ({ body_a with velocity := body_a.velocity.add (impulse.truediv body_a.mass) },
       { body_b with velocity := body_b.velocity.sub (impulse.truediv body_b.mass) })
  else
    (body_a, body_b)

/-- The grounded-flag block of `_resolve_collision`: an upward-pointing
normal grounds the dynamic bodies involved. -/
def set_grounded (body_a body_b : PhysicsBody) (normal : Vector2) :
    PhysicsBody × PhysicsBody :=
  if normal.y < -(1 / 2) then
    ({ body_a with is_grounded := if body_a.is_static = false then true else body_a.is_grounded },
     { body_b with is_grounded := if body_b.is_static = false then true else body_b.is_grounded })
  else
    (body_a, body_b)

/-- `_resolve_collision` on the two involved bodies: wake both, apply
positional correction, the impulse response, and the grounded flags. -/
def resolve_pair (a b : PhysicsBody) (normal : Vector2) (penetration : ℚ) :
    PhysicsBody × PhysicsBody :=
  let pc := positional_correction a.wake_up b.wake_up normal penetration
  let vc := velocity_response pc.1 pc.2 normal
  set_grounded vc.1 vc.2 normal

/-- The velocity-correction block of `_resolve_collision` with Python's
`ZeroDivisionError` made explicit: `impulse_magnitude /= (1/m_a + 1/m_b)`
evaluates `1/m_a` and `1/m_b` by float division, which raises (`none`)
on a zero mass, and raises again if the inverse-mass sum is zero.  The
final `impulse / mass` uses `Vector2.__truediv__`, which is guarded. -/
def velocity_correction (a b : PhysicsBody) (normal : Vector2) :
    Option (PhysicsBody × PhysicsBody) :=
  if a.is_static = false ∧ b.is_static = false then
    let relative_velocity := a.velocity.sub b.velocity
    let velocity_along_normal := relative_velocity.dot normal
    if velocity_along_normal > 0 then some (a, b)
    else if a.mass = 0 then none
    else if b.mass = 0 then none
    else if 1 / a.mass + 1 / b.mass = 0 then none
    else
      let restitution := min a.restitution b.restitution
      let impulse_magnitude :=
        (-(1 + restitution) * velocity_along_normal) / (1 / a.mass + 1 / b.mass)
      let impulse := normal.smul impulse_magnitude
      some ({ a with velocity := a.velocity.add (impulse.truediv a.mass) },
            { b with velocity := b.velocity.sub (impulse.truediv b.mass) })
  else
    some (a, b)

/-- `_resolve_collision` acting on the body list through the collision's
indices. -/
def resolve_collision (bodies : List PhysicsBody) (c : CollisionInfo) :
    List PhysicsBody :=
  match bodies.get? c.idx_a, bodies.get? c.idx_b with
  | some a, some b =>
      let p := resolve_pair a b c.normal c.penetration
      (bodies.set c.idx_a p.1).set c.idx_b p.2
  | _, _ => bodies

/-- `PhysicsSystem.update(dt)`: integrate and sleep-check every body,
compute broad-phase pairs, narrow-phase collisions, and resolve them in
order. -/
def update (gravity : Vector2) (dt : ℚ) (bodies : List PhysicsBody) :
    List PhysicsBody :=
  let bodies1 := bodies.map (step_body gravity dt)
  let pairs := broad_phase_collision_pairs bodies1
  let collisions := narrow_phase bodies1 pairs
  collisions.foldl resolve_collision bodies1

end PhysicsSystem

/-! ## WeaponBase  (src/weapons/weapon_base.py)

Weapon timing uses `time.time()` wall-clock stamps; the embedding
threads the current time `now : ℚ` through each operation.  Emitted
events are returned explicitly.  `_create_bullets` only reads weapon
state (trigonometry and a random spread offset); its payload is
irrelevant to every claim and the fire event is recorded without it. -/

/-- The event kinds emitted by the weapon state machine
(src/core/event_manager.py, EventType). -/
inductive EventType where
  | weapon_fire
  | weapon_reload_start
  | weapon_reload_complete
  | sound_play
deriving DecidableEq

/-- `WeaponBase` state: static stats from config, runtime ammo/reload
state, and the card-driven modifiers. -/
structure Weapon where
  weapon_type : String
  damage : ℚ
  fire_rate : ℚ
  magazine_size : ℤ
  reload_time : ℚ
  bullet_speed : ℚ
  spread : ℚ
  bullets_per_shot : ℤ
  current_ammo : ℤ
  is_reloading : Bool
  reload_start_time : ℚ
  last_shot_time : ℚ
  damage_multiplier : ℚ
  fire_rate_multiplier : ℚ
  reload_time_multiplier : ℚ
  magazine_size_bonus : ℤ
  bullet_size_multiplier : ℚ
deriving DecidableEq

namespace Weapon

/-- `WeaponBase.__init__` given the per-type config row: full magazine,
ready state, neutral modifiers. -/
def init (weapon_type : String) (damage fire_rate : ℚ) (magazine_size : ℤ)
    (reload_time bullet_speed spread : ℚ) (bullets_per_shot : ℤ) : Weapon where
  weapon_type := weapon_type
  damage := damage
  fire_rate := fire_rate
  magazine_size := magazine_size
  reload_time := reload_time
  bullet_speed := bullet_speed
  spread := spread
  bullets_per_shot := bullets_per_shot
  current_ammo := magazine_size
  is_reloading := false
  reload_start_time := 0
  last_shot_time := 0
  damage_multiplier := 1
  fire_rate_multiplier := 1
  reload_time_multiplier := 1
  magazine_size_bonus := 0
  bullet_size_multiplier := 1

/-- The pistol row of `GameConfig.weapon_configs`. -/
def pistol : Weapon := init "pistol" 25 2 8 (3 / 2) 800 0 1

/-- The shotgun row of `GameConfig.weapon_configs`. -/
def shotgun : Weapon := init "shotgun" 15 1 4 (5 / 2) 600 25 5

/-- The smg row of `GameConfig.weapon_configs`. -/
def smg : Weapon := init "smg" 15 8 24 2 700 5 1

/-- The sniper row of `GameConfig.weapon_configs`. -/
def sniper : Weapon := init "sniper" 75 (1 / 2) 3 3 1200 0 1

/-- `get_max_magazine_size`. -/
def get_max_magazine_size (w : Weapon) : ℤ :=
  w.magazine_size + w.magazine_size_bonus

/-- `get_reload_time`. -/
def get_reload_time (w : Weapon) : ℚ :=
  w.reload_time * w.reload_time_multiplier

/-- `can_shoot` at wall-clock time `now`: not reloading, ammo left, and
the fire interval `1/(fire_rate * fire_rate_multiplier)` has elapsed. -/
def can_shoot (now : ℚ) (w : Weapon) : Prop :=
  w.is_reloading = false ∧
  w.current_ammo > 0 ∧
  now - w.last_shot_time ≥ 1 / (w.fire_rate * w.fire_rate_multiplier)

instance (now : ℚ) (w : Weapon) : Decidable (can_shoot now w) := by
  unfold can_shoot; infer_instance

/-- `reload`: refuse while reloading or with a full magazine; otherwise
enter the reloading state and stamp the start time. -/
def reload (now : ℚ) (w : Weapon) : Bool × Weapon × List EventType :=
  if w.is_reloading = true ∨ w.current_ammo = w.get_max_magazine_size then
    (false, w, [])
  else
    (true, { w with is_reloading := true, reload_start_time := now },
     [.weapon_reload_start, .sound_play])

/-- `shoot(start_pos, target_pos)` at time `now`: auto-reload instead of
firing when empty; otherwise fire if `can_shoot`, consuming one round,
emitting the fire events, and auto-reloading when the magazine empties. -/
def shoot (now : ℚ) (w : Weapon) : Bool × Weapon × List EventType :=
  if w.current_ammo = 0 ∧ w.is_reloading = false then
    let r := reload now w
    (false, r.2.1, r.2.2)
  else if can_shoot now w then
    let w1 := { w with last_shot_time := now, current_ammo := w.current_ammo - 1 }
    let events := [EventType.weapon_fire, EventType.sound_play]
    if w1.current_ammo = 0 then
      let r := reload now w1
      (true, r.2.1, events ++ r.2.2)
    else
      (true, w1, events)
  else
    (false, w, [])

/-- `_complete_reload`. -/
def complete_reload (w : Weapon) : Weapon × List EventType :=
  ({ w with is_reloading := false, current_ammo := w.get_max_magazine_size },
   [.weapon_reload_complete])

/-- `update(dt)`: finish a reload once `reload_time * reload_time_multiplier`
has elapsed since its start (the `dt` argument is unused by the source;
the wall clock `now` decides). -/
def update (now : ℚ) (w : Weapon) : Weapon × List EventType :=
  if w.is_reloading = true ∧ now - w.reload_start_time ≥ w.get_reload_time then
    complete_reload w
  else
    (w, [])

end Weapon

/-! ## WeaponManager  (src/weapons/weapon_manager.py)

Only the card-effect routing matters to the claims: every weapon in the
manager's `weapons` dict receives the modifier. -/

namespace WeaponManager

/-- The body of the `apply_card_effect` loop for one weapon: additive
damage / fire-rate / bullet-size boosts, the multiplicative
reload-speed boost, and the integer magazine bonus. -/
def apply_card_effect_one (effect_type : String) (value : ℚ) (w : Weapon) : Weapon :=
  if effect_type = "damage_boost" then
    { w with damage_multiplier := w.damage_multiplier + value }
  else if effect_type = "fire_rate_boost" then
    { w with fire_rate_multiplier := w.fire_rate_multiplier + value }
  else if effect_type = "reload_speed_boost" then
    { w with reload_time_multiplier := w.reload_time_multiplier * (1 - value) }
  else if effect_type = "magazine_size_boost" then
    { w with magazine_size_bonus := w.magazine_size_bonus + pyInt value }
  else if effect_type = "bullet_size_boost" then
    { w with bullet_size_multiplier := w.bullet_size_multiplier + value }
  else
    w

/-- `apply_card_effect(effect_type, value)` applied to every weapon of
the manager's `weapons` dict. -/
def apply_card_effect (effect_type : String) (value : ℚ)
    (weapons : List Weapon) : List Weapon :=
  weapons.map (apply_card_effect_one effect_type value)

end WeaponManager

/-! ## Player  (src/entities/player.py)

The card targets are live `Player` objects.  `Player.__init__` defines
`damage_reduction`, `healing_rate`, `speed_multiplier`,
`jump_force_multiplier` and `max_jumps`, so the cards' `hasattr` probes
for those attributes always succeed.  No code in the repository ever
assigns a `weapon_manager` attribute to a `Player` (the game keeps its
`WeaponManager` on the `Game` object), so `hasattr(player,
'weapon_manager')` is duck-typed: it is kept as an `Option` field. -/

/-- Card-relevant state of a `Player`. -/
structure Player where
  health : ℚ
  max_health : ℚ
  alive : Bool
  damage_reduction : ℚ
  healing_rate : ℚ
  speed_multiplier : ℚ
  jump_force_multiplier : ℚ
  max_jumps : ℤ
  current_jumps : ℤ
  weapon_manager : Option (List Weapon)
deriving DecidableEq

namespace Player

/-- `Player.__init__` with `config.player_max_health = 100`. -/
def init : Player where
  health := 100
  max_health := 100
  alive := true
  damage_reduction := 0
  healing_rate := 0
  speed_multiplier := 1
  jump_force_multiplier := 1
  max_jumps := 1
  current_jumps := 0
  weapon_manager := none

/-- `take_damage`: damage scaled down by `damage_reduction`; health
floored at zero, killing the player. -/
def take_damage (damage : ℚ) (p : Player) : Player :=
  let actual_damage := damage * (1 - p.damage_reduction)
  let health := p.health - actual_damage
  if health ≤ 0 then { p with health := 0, alive := false }
  else { p with health := health }

/-- Routing a weapon-manager card effect through the duck-typed
`player.weapon_manager` attribute: a no-op when the attribute is absent
(the `hasattr` guard of the weapon cards). -/
def route_effect (f : List Weapon → List Weapon) (p : Player) : Player :=
  match p.weapon_manager with
  | some ws => { p with weapon_manager := some (f ws) }
  | none => p

end Player

/-! ## Card effects  (src/cards/card_effects.py)

Each card's only mutable state is `current_stacks` (`CardBase` starts it
at 0); `is_stackable`/`max_stacks` are per-class constants.  Each
`apply_effect`/`remove_effect` is embedded as a function on
`(current_stacks, player)`. -/

namespace DamageBoostCard

/-- Per-stack magnitude. -/
def damage_boost : ℚ := 1 / 4

/-- `DamageBoostCard.apply_effect` (stackable, `max_stacks = 3`). -/
def apply_effect (current_stacks : ℤ) (player : Player) : ℤ × Player :=
  (current_stacks + 1,
   player.route_effect (WeaponManager.apply_card_effect "damage_boost" damage_boost))

/-- `DamageBoostCard.remove_effect`: subtracts the per-stack value
scaled by `current_stacks`. -/
def remove_effect (current_stacks : ℤ) (player : Player) : ℤ × Player :=
  (0,
   player.route_effect
     (WeaponManager.apply_card_effect "damage_boost" (-damage_boost * current_stacks)))

end DamageBoostCard

namespace FireRateBoostCard

/-- Magnitude. -/
def fire_rate_boost : ℚ := 1 / 2

/-- `FireRateBoostCard.apply_effect` (not stackable). -/
def apply_effect (current_stacks : ℤ) (player : Player) : ℤ × Player :=
  let _ := current_stacks
  (1,
   player.route_effect
     (WeaponManager.apply_card_effect "fire_rate_boost" fire_rate_boost))

/-- `FireRateBoostCard.remove_effect`. -/
def remove_effect (current_stacks : ℤ) (player : Player) : ℤ × Player :=
  let _ := current_stacks
  (0,
   player.route_effect
     (WeaponManager.apply_card_effect "fire_rate_boost" (-fire_rate_boost)))

end FireRateBoostCard

namespace LargeMagazineCard

/-- Per-stack fraction of the base magazine. -/
def magazine_boost : ℚ := 1 / 2

/-- `LargeMagazineCard.apply_effect` (stackable, `max_stacks = 2`):
adds `int(magazine_size * 0.5)` to each weapon's bonus directly. -/
def apply_effect (current_stacks : ℤ) (player : Player) : ℤ × Player :=
  (current_stacks + 1,
   player.route_effect fun ws => ws.map fun w =>
     { w with magazine_size_bonus :=
         w.magazine_size_bonus + pyInt ((w.magazine_size : ℚ) * magazine_boost) })

/-- `LargeMagazineCard.remove_effect`: subtracts the per-stack bonus
scaled by `current_stacks`.  `current_ammo` is left untouched. -/
def remove_effect (current_stacks : ℤ) (player : Player) : ℤ × Player :=
  (0,
   player.route_effect fun ws => ws.map fun w =>
     { w with magazine_size_bonus :=
         w.magazine_size_bonus - pyInt ((w.magazine_size : ℚ) * magazine_boost) * current_stacks })

end LargeMagazineCard

namespace ArmorCard

/-- Per-stack magnitude. -/
def damage_reduction : ℚ := 1 / 5

/-- `ArmorCard.apply_effect` (stackable, `max_stacks = 3`); the
`hasattr` branch is always taken, `Player.__init__` defines the
attribute. -/
def apply_effect (current_stacks : ℤ) (player : Player) : ℤ × Player :=
  (current_stacks + 1,
   { player with damage_reduction := player.damage_reduction + damage_reduction })

/-- `ArmorCard.remove_effect`. -/
def remove_effect (current_stacks : ℤ) (player : Player) : ℤ × Player :=
  (0,
   { player with damage_reduction :=
       player.damage_reduction - damage_reduction * current_stacks })

end ArmorCard

namespace FastHealingCard

/-- Magnitude (hp per second). -/
def healing_rate : ℚ := 5

/-- `FastHealingCard.apply_effect` (not stackable). -/
def apply_effect (current_stacks : ℤ) (player : Player) : ℤ × Player :=
  let _ := current_stacks
  (1, { player with healing_rate := player.healing_rate + healing_rate })

/-- `FastHealingCard.remove_effect`. -/
def remove_effect (current_stacks : ℤ) (player : Player) : ℤ × Player :=
  let _ := current_stacks
  (0, { player with healing_rate := player.healing_rate - healing_rate })

end FastHealingCard

namespace ExtraHealthCard

/-- Per-stack magnitude. -/
def health_bonus : ℚ := 50

/-- `ExtraHealthCard.apply_effect` (stackable, `max_stacks = 2`):
raises both `max_health` and current `health`. -/
def apply_effect (current_stacks : ℤ) (player : Player) : ℤ × Player :=
  (current_stacks + 1,
   { player with
       max_health := player.max_health + health_bonus
       health := player.health + health_bonus })

/-- `ExtraHealthCard.remove_effect`: restores `max_health` by the
stack-scaled total, then clamps `health` to the new maximum — it does
not subtract the granted health. -/
def remove_effect (current_stacks : ℤ) (player : Player) : ℤ × Player :=
  let total_bonus := health_bonus * current_stacks
  let max_health := player.max_health - total_bonus
  (0,
   { player with
       max_health := max_health
       health := min player.health max_health })

end ExtraHealthCard

namespace SpeedBoostCard

/-- Per-stack magnitude. -/
def speed_multiplier : ℚ := 3 / 10

/-- `SpeedBoostCard.apply_effect` (stackable, `max_stacks = 2`). -/
def apply_effect (current_stacks : ℤ) (player : Player) : ℤ × Player :=
  (current_stacks + 1,
   { player with speed_multiplier := player.speed_multiplier + speed_multiplier })

/-- `SpeedBoostCard.remove_effect`. -/
def remove_effect (current_stacks : ℤ) (player : Player) : ℤ × Player :=
  (0,
   { player with speed_multiplier :=
       player.speed_multiplier - speed_multiplier * current_stacks })

end SpeedBoostCard

namespace DoubleJumpCard

/-- `DoubleJumpCard.apply_effect` (not stackable): sets `max_jumps = 2`. -/
def apply_effect (current_stacks : ℤ) (player : Player) : ℤ × Player :=
  let _ := current_stacks
  (1, { player with max_jumps := 2 })

/-- `DoubleJumpCard.remove_effect`: sets `max_jumps = 1`. -/
def remove_effect (current_stacks : ℤ) (player : Player) : ℤ × Player :=
  let _ := current_stacks
  (0, { player with max_jumps := 1 })

end DoubleJumpCard

namespace HighJumpCard

/-- Magnitude. -/
def jump_boost : ℚ := 2 / 5

/-- `HighJumpCard.apply_effect` (not stackable). -/
def apply_effect (current_stacks : ℤ) (player : Player) : ℤ × Player :=
  let _ := current_stacks
  (1,
   { player with jump_force_multiplier := player.jump_force_multiplier + jump_boost })

/-- `HighJumpCard.remove_effect`. -/
def remove_effect (current_stacks : ℤ) (player : Player) : ℤ × Player :=
  let _ := current_stacks
  (0,
   { player with jump_force_multiplier := player.jump_force_multiplier - jump_boost })

end HighJumpCard

namespace ReloadSpeedCard

/-- Magnitude. -/
def reload_speed_boost : ℚ := 1 / 2

/-- `ReloadSpeedCard.apply_effect` (not stackable): routes
`reload_speed_boost` through the manager, which multiplies every
weapon's `reload_time_multiplier` by `(1 - value)`. -/
def apply_effect (current_stacks : ℤ) (player : Player) : ℤ × Player :=
  let _ := current_stacks
  (1,
   player.route_effect
     (WeaponManager.apply_card_effect "reload_speed_boost" reload_speed_boost))

/-- `ReloadSpeedCard.remove_effect`: divides every weapon's
`reload_time_multiplier` by `(1 - value)` directly. -/
def remove_effect (current_stacks : ℤ) (player : Player) : ℤ × Player :=
  let _ := current_stacks
  (0,
   player.route_effect fun ws => ws.map fun w =>
     { w with reload_time_multiplier :=
         w.reload_time_multiplier / (1 - reload_speed_boost) })

end ReloadSpeedCard

namespace BigBulletsCard

/-- Magnitude. -/
def bullet_size_boost : ℚ := 1 / 2

/-- `BigBulletsCard.apply_effect` (not stackable). -/
def apply_effect (current_stacks : ℤ) (player : Player) : ℤ × Player :=
  let _ := current_stacks
  (1,
   player.route_effect
     (WeaponManager.apply_card_effect "bullet_size_boost" bullet_size_boost))

/-- `BigBulletsCard.remove_effect`. -/
def remove_effect (current_stacks : ℤ) (player : Player) : ℤ × Player :=
  let _ := current_stacks
  (0,
   player.route_effect
     (WeaponManager.apply_card_effect "bullet_size_boost" (-bullet_size_boost)))

end BigBulletsCard

/-! ## CardManager  (src/cards/card_manager.py)

`get_weighted_random_cards(count)` makes `count` independent draws: each
draw picks a rarity by `random.choices` over the weights, then picks
uniformly among catalog cards of that rarity — a draw whose rarity has
no card contributes nothing.  The randomness is threaded explicitly:
one rational in `[0, total_weight)` per rarity pick and one natural
number per uniform card pick. -/

/-- `CardRarity` (src/cards/card_base.py). -/
inductive CardRarity where
  | common
  | rare
  | epic
  | legendary
deriving DecidableEq

namespace CardManager

/-- The card catalog (`card_types`, in dict insertion order) paired with
each card class's declared rarity. -/
def card_catalog : List (String × CardRarity) :=
  [("damage_boost", .common),
   ("fire_rate_boost", .rare),
   ("large_magazine", .common),
   ("armor", .common),
   ("fast_healing", .rare),
   ("extra_health", .epic),
   ("speed_boost", .common),
   ("double_jump", .epic),
   ("high_jump", .rare),
   ("reload_speed", .rare),
   ("big_bullets", .epic)]

/-- `rarity_weights`: common 50, rare 30, epic 15, legendary 5. -/
def rarity_weights : List (CardRarity × ℕ) :=
  [(.common, 50), (.rare, 30), (.epic, 15), (.legendary, 5)]

/-- Weighted choice over a weight table given a sample `r` in
`[0, total weight)` — the cumulative-weight selection performed by
`random.choices`. -/
def weighted_pick (r : ℚ) : List (CardRarity × ℕ) → Option CardRarity
  | [] => none
  | (a, w) :: t => if r < (w : ℚ) then some a else weighted_pick (r - (w : ℚ)) t

/-- `_get_random_rarity` driven by a sample `r ∈ [0, 100)`. -/
def get_random_rarity (r : ℚ) : CardRarity :=
  (weighted_pick r rarity_weights).getD .legendary

/-- `get_weighted_random_cards(count)` driven by one `(rarity sample,
card pick)` pair per draw (`count = draws.length`).  `create_card`
always succeeds for catalog ids, so a drawn card is always appended. -/
def get_weighted_random_cards (draws : List (ℚ × ℕ)) : List String :=
  draws.foldl
    (fun cards draw =>
      let rarity := get_random_rarity draw.1
      let rarity_cards := (card_catalog.filter fun c => c.2 = rarity).map Prod.fst
      if rarity_cards = [] then cards
      else cards ++ [rarity_cards.getD (draw.2 % rarity_cards.length) ""])
    []

end CardManager

/-! ## Theorems -/

/-- C10: `Vector2` division and normalization are total: `v / 0` returns
`Vector2(0, 0)` instead of raising `ZeroDivisionError`, and normalizing
the zero vector returns `Vector2(0, 0)` instead of dividing by a zero
length (for any square-root function with `sqrt 0 = 0`, as `math.sqrt`
has). -/
theorem vector2_division_and_normalize_total :
    (∀ v : Vector2, v.truediv 0 = ⟨0, 0⟩) ∧
    (∀ sqrt : ℚ → ℚ, sqrt 0 = 0 →
      Vector2.normalizeWith sqrt ⟨0, 0⟩ = ⟨0, 0⟩) := by
  constructor
  · intro v
    simp [Vector2.truediv]
  · intro sqrt h
    simp [Vector2.normalizeWith, h]

/-- Witness for C10 at concrete inputs. -/
theorem vector2_division_and_normalize_total_witness :
    Vector2.truediv ⟨3, 4⟩ 0 = ⟨0, 0⟩ ∧
    Vector2.normalizeWith (fun q => q) ⟨0, 0⟩ = ⟨0, 0⟩ :=
  ⟨vector2_division_and_normalize_total.1 ⟨3, 4⟩,
   vector2_division_and_normalize_total.2 (fun q => q) rfl⟩

/-- C9: `get_weighted_random_cards(count)` can return fewer than `count`
cards: legendary has positive weight 5, a legendary draw finds no card
because the shipped catalog contains no legendary card, and such a draw
contributes nothing — with three all-legendary samples the result is
empty. -/
theorem weighted_draw_can_return_fewer_cards :
    (CardManager.card_catalog.filter fun c => c.2 = CardRarity.legendary) = [] ∧
    (CardRarity.legendary, 5) ∈ CardManager.rarity_weights ∧
    CardManager.get_random_rarity 99 = CardRarity.legendary ∧
    CardManager.get_weighted_random_cards [(99, 0), (99, 1), (99, 2)] = [] ∧
    (CardManager.get_weighted_random_cards [(99, 0), (99, 1), (99, 2)]).length < 3 := by
  refine ⟨by decide, by decide, ?_, ?_, ?_⟩ <;>
    · norm_num [CardManager.get_weighted_random_cards, CardManager.get_random_rarity,
        CardManager.weighted_pick, CardManager.rarity_weights, CardManager.card_catalog]
      try decide

/-- C3 counterexample: `PhysicsBody` construction never fails — it does
not even take a mass parameter, setting `mass = 1.0` unconditionally —
so a body whose mass is later zeroed is accepted and only explodes
(`ZeroDivisionError`, modelled as `none`) inside the impulse
computation of `_resolve_collision`. -/
theorem physicsbody_zero_mass_counterexample :
    (PhysicsBody.init 0 0 10 10).mass = 1 ∧
    PhysicsSystem.velocity_correction
      { PhysicsBody.init 0 0 10 10 with mass := 0 }
      (PhysicsBody.init 5 0 10 10) ⟨1, 0⟩ = none := by
  refine ⟨rfl, ?_⟩
  norm_num [PhysicsSystem.velocity_correction, PhysicsBody.init,
    Vector2.sub, Vector2.dot]

/-- C3 amended: the constructor performs no zero-mass rejection — every
constructed body has `mass = 1` — and a zero-mass dynamic body reaching
the impulse computation (bodies not separating) raises
`ZeroDivisionError` there rather than at construction time. -/
theorem physicsbody_zero_mass_divzero_at_impulse
    (x y w h : ℚ) (a b : PhysicsBody) (n : Vector2)
    (hsa : a.is_static = false) (hsb : b.is_static = false)
    (hm : a.mass = 0)
    (hv : (a.velocity.sub b.velocity).dot n ≤ 0) :
    (PhysicsBody.init x y w h).mass = 1 ∧
    PhysicsSystem.velocity_correction a b n = none := by
  refine ⟨rfl, ?_⟩
  unfold PhysicsSystem.velocity_correction
  simp [hsa, hsb, hm, not_lt.2 hv]

/-- Witness for C3's amended theorem at concrete inputs. -/
theorem physicsbody_zero_mass_divzero_at_impulse_witness :
    (PhysicsBody.init 0 0 10 10).mass = 1 ∧
    PhysicsSystem.velocity_correction
      { PhysicsBody.init 3 0 10 10 with mass := 0 }
      (PhysicsBody.init 5 0 10 10) ⟨1, 0⟩ = none :=
  physicsbody_zero_mass_divzero_at_impulse 0 0 10 10
    { PhysicsBody.init 3 0 10 10 with mass := 0 }
    (PhysicsBody.init 5 0 10 10) ⟨1, 0⟩
    rfl rfl rfl
    (by norm_num [PhysicsBody.init, Vector2.sub, Vector2.dot])

/-! Evaluation lemmas: the `apply_card_effect` dispatch at each of the
five effect-type strings. -/

theorem apply_card_effect_damage_boost (value : ℚ) (ws : List Weapon) :
    WeaponManager.apply_card_effect "damage_boost" value ws =
      ws.map fun w => { w with damage_multiplier := w.damage_multiplier + value } := rfl

theorem apply_card_effect_fire_rate_boost (value : ℚ) (ws : List Weapon) :
    WeaponManager.apply_card_effect "fire_rate_boost" value ws =
      ws.map fun w => { w with fire_rate_multiplier := w.fire_rate_multiplier + value } := rfl

theorem apply_card_effect_reload_speed_boost (value : ℚ) (ws : List Weapon) :
    WeaponManager.apply_card_effect "reload_speed_boost" value ws =
      ws.map fun w =>
        { w with reload_time_multiplier := w.reload_time_multiplier * (1 - value) } := rfl

theorem apply_card_effect_magazine_size_boost (value : ℚ) (ws : List Weapon) :
    WeaponManager.apply_card_effect "magazine_size_boost" value ws =
      ws.map fun w =>
        { w with magazine_size_bonus := w.magazine_size_bonus + pyInt value } := rfl

theorem apply_card_effect_bullet_size_boost (value : ℚ) (ws : List Weapon) :
    WeaponManager.apply_card_effect "bullet_size_boost" value ws =
      ws.map fun w =>
        { w with bullet_size_multiplier := w.bullet_size_multiplier + value } := rfl

/-! Routing lemmas for the duck-typed `player.weapon_manager` access. -/

theorem route_effect_none (f : List Weapon → List Weapon) (p : Player)
    (h : p.weapon_manager = none) : Player.route_effect f p = p := by
  simp [Player.route_effect, h]

theorem route_effect_some (f : List Weapon → List Weapon) (p : Player)
    (ws : List Weapon) (h : p.weapon_manager = some ws) :
    Player.route_effect f p = { p with weapon_manager := some (f ws) } := by
  simp [Player.route_effect, h]

theorem route_effect_wm (f : List Weapon → List Weapon) (p : Player) :
    (Player.route_effect f p).weapon_manager = p.weapon_manager.map f := by
  cases h : p.weapon_manager <;> simp [Player.route_effect, h]

theorem route_effect_id (p : Player) :
    Player.route_effect (fun ws => ws) p = p := by
  cases h : p.weapon_manager with
  | none => simp [Player.route_effect, h]
  | some ws =>
      rw [route_effect_some _ p ws h, ← h]

/-- C7 counterexample: two overlapping bodies whose left edges coincide
(centre 0 width 2 and centre 1 width 4, both left edges at −1, heights
10): the x-axis is the minimum-penetration axis, and both argument
orders return the SAME normal `(1, 0)` — not negated ones. -/
theorem aabb_swap_counterexample :
    PhysicsSystem.check_aabb_collision (PhysicsBody.init 0 0 2 10)
      (PhysicsBody.init 1 0 4 10) = some (⟨1, 0⟩, 2) ∧
    PhysicsSystem.check_aabb_collision (PhysicsBody.init 1 0 4 10)
      (PhysicsBody.init 0 0 2 10) = some (⟨1, 0⟩, 2) ∧
    (⟨1, 0⟩ : Vector2) ≠ Vector2.neg ⟨1, 0⟩ := by
  refine ⟨?_, ?_, ?_⟩ <;>
    norm_num [PhysicsSystem.check_aabb_collision, PhysicsBody.init, min_def,
      Vector2.neg, Vector2.mk.injEq]

/-- Exact swap behaviour of the narrow-phase AABB check, for results
`ca` of order (a, b) and `cb` of order (b, a): the penetration depth is
always the same; on the x-axis branch (x-overlap strictly smaller than
y-overlap, a comparison invariant under swapping), the normal is exactly
negated when the two left edges differ, and both orders return the same
`(1, 0)` when the left edges coincide; on the y-axis branch likewise
with top edges and `(0, 1)`. -/
def AabbSwapSpec (a b : PhysicsBody) (ca cb : Vector2 × ℚ) : Prop :=
  cb.2 = ca.2 ∧
  (min (a.position.x + a.width / 2 - (b.position.x - b.width / 2))
       (b.position.x + b.width / 2 - (a.position.x - a.width / 2)) <
     min (a.position.y + a.height / 2 - (b.position.y - b.height / 2))
       (b.position.y + b.height / 2 - (a.position.y - a.height / 2)) →
    (a.position.x - a.width / 2 ≠ b.position.x - b.width / 2 →
      cb.1 = ca.1.neg) ∧
    (a.position.x - a.width / 2 = b.position.x - b.width / 2 →
      ca.1 = ⟨1, 0⟩ ∧ cb.1 = ⟨1, 0⟩)) ∧
  (¬ min (a.position.x + a.width / 2 - (b.position.x - b.width / 2))
       (b.position.x + b.width / 2 - (a.position.x - a.width / 2)) <
     min (a.position.y + a.height / 2 - (b.position.y - b.height / 2))
       (b.position.y + b.height / 2 - (a.position.y - a.height / 2)) →
    (a.position.y - a.height / 2 ≠ b.position.y - b.height / 2 →
      cb.1 = ca.1.neg) ∧
    (a.position.y - a.height / 2 = b.position.y - b.height / 2 →
      ca.1 = ⟨0, 1⟩ ∧ cb.1 = ⟨0, 1⟩))

/-- C7 amended: whenever both argument orders of the narrow-phase AABB
check report a collision, the penetration depth is the same in both
orders, unconditionally; the normal of the swapped order is the exact
negation of the original whenever the leading edges on the chosen
minimum-penetration axis differ (left edges on the x-branch, top edges
on the y-branch); and when those leading edges coincide, the
`-1 if a_left < b_left else 1` tie-break makes both orders return the
same `+1` normal on that axis instead of negated ones. -/
theorem aabb_swap_symmetry (a b : PhysicsBody) (ca cb : Vector2 × ℚ)
    (hab : PhysicsSystem.check_aabb_collision a b = some ca)
    (hba : PhysicsSystem.check_aabb_collision b a = some cb) :
    AabbSwapSpec a b ca cb := by
  simp only [AabbSwapSpec]
  simp only [PhysicsSystem.check_aabb_collision] at hab hba
  set aL := a.position.x - a.width / 2 with haL
  set aR := a.position.x + a.width / 2 with haR
  set aT := a.position.y - a.height / 2 with haT
  set aB := a.position.y + a.height / 2 with haB
  set bL := b.position.x - b.width / 2 with hbL
  set bR := b.position.x + b.width / 2 with hbR
  set bT := b.position.y - b.height / 2 with hbT
  set bB := b.position.y + b.height / 2 with hbB
  -- the swapped overlap minima are the originals, so both argument
  -- orders take the same penetration-axis branch
  rw [min_comm (bR - aL) (aR - bL), min_comm (bB - aT) (aB - bT)] at hba
  split_ifs at hab hba
  all_goals simp only [Option.some.injEq, reduceCtorEq] at hab hba
  all_goals subst hab
  all_goals subst hba
  all_goals
    refine ⟨rfl, fun hbr => ⟨fun hne => ?_, fun heq => ?_⟩,
      fun hbr => ⟨fun hne => ?_, fun heq => ?_⟩⟩
  all_goals
    first
    | (exfalso
       linarith)
    | exact ⟨rfl, rfl⟩
    | (norm_num [Vector2.neg, Vector2.mk.injEq]
       done)
    | (exfalso
       exact hne (by linarith))

/-- Witness for C7's amended theorem: bodies centred at (0,0) (2×10)
and (2,1) (4×8) overlap; the two argument orders give penetration 1
with normals (−1,0) and (1,0), and the x-axis is the chosen branch with
distinct left edges. -/
theorem aabb_swap_symmetry_witness :
    AabbSwapSpec (PhysicsBody.init 0 0 2 10) (PhysicsBody.init 2 1 4 8)
      (⟨-1, 0⟩, 1) (⟨1, 0⟩, 1) :=
  aabb_swap_symmetry (PhysicsBody.init 0 0 2 10) (PhysicsBody.init 2 1 4 8)
    (⟨-1, 0⟩, 1) (⟨1, 0⟩, 1)
    (by norm_num [PhysicsSystem.check_aabb_collision, PhysicsBody.init, min_def])
    (by norm_num [PhysicsSystem.check_aabb_collision, PhysicsBody.init, min_def])

/-- C5: with `fire_rate = 2.0` and `fire_rate_multiplier = 1.0`, a ready
weapon with ammo for both shots fires at `t1`; a second `shoot` less
than 0.5 s later returns `false` with no state change and no emitted
event, while a second call at least 0.5 s after the first succeeds. -/
theorem fire_rate_gate (w : Weapon) (t1 t2 : ℚ)
    (hfr : w.fire_rate = 2) (hmul : w.fire_rate_multiplier = 1)
    (hammo : 2 ≤ w.current_ammo)
    (hcan : Weapon.can_shoot t1 w) :
    (Weapon.shoot t1 w).1 = true ∧
    (t2 - t1 < 1 / 2 →
      Weapon.shoot t2 (Weapon.shoot t1 w).2.1 = (false, (Weapon.shoot t1 w).2.1, [])) ∧
    (t2 - t1 ≥ 1 / 2 → (Weapon.shoot t2 (Weapon.shoot t1 w).2.1).1 = true) := by
  obtain ⟨hrel, hpos, hint⟩ := hcan
  have h0 : ¬(w.current_ammo = 0) := by omega
  have h1 : ¬(w.current_ammo - 1 = 0) := by omega
  have hintn : w.fire_rate_multiplier⁻¹ * w.fire_rate⁻¹ ≤ t1 - w.last_shot_time := by
    rw [hfr, hmul] at hint ⊢
    norm_num at hint ⊢
    linarith
  have hshoot1 :
      Weapon.shoot t1 w =
        (true, { w with last_shot_time := t1, current_ammo := w.current_ammo - 1 },
         [EventType.weapon_fire, EventType.sound_play]) := by
    simp [Weapon.shoot, Weapon.can_shoot, h0, h1, hrel, hpos, hintn]
  rw [hshoot1]
  refine ⟨rfl, ?_, ?_⟩
  · intro hlt
    have hgate : ¬(w.fire_rate_multiplier⁻¹ * w.fire_rate⁻¹ ≤ t2 - t1) := by
      rw [hfr, hmul]
      norm_num
      linarith
    simp [Weapon.shoot, Weapon.can_shoot, h1, hgate]
  · intro hge
    have h2 : (0 : ℤ) < w.current_ammo - 1 := by omega
    have hgate : w.fire_rate_multiplier⁻¹ * w.fire_rate⁻¹ ≤ t2 - t1 := by
      rw [hfr, hmul]
      norm_num
      linarith
    simp only [Weapon.shoot, Weapon.can_shoot]
    rw [if_neg (by simp [h1])]
    rw [if_pos (by simp [hrel, h2]; simpa using hgate)]
    split <;> rfl

/-- Witness for C5 at the configured pistol (`fire_rate = 2`), first
shot at `t1 = 1`, second attempt at `t2 = 5/4`. -/
theorem fire_rate_gate_witness :
    (Weapon.shoot 1 Weapon.pistol).1 = true ∧
    ((5 : ℚ)/4 - 1 < 1 / 2 →
      Weapon.shoot (5/4) (Weapon.shoot 1 Weapon.pistol).2.1 =
        (false, (Weapon.shoot 1 Weapon.pistol).2.1, [])) ∧
    ((5 : ℚ)/4 - 1 ≥ 1 / 2 →
      (Weapon.shoot (5/4) (Weapon.shoot 1 Weapon.pistol).2.1).1 = true) :=
  fire_rate_gate Weapon.pistol 1 (5/4) rfl rfl (by decide)
    ⟨rfl, by decide, by norm_num [Weapon.pistol, Weapon.init]⟩

/-- C6: the `reload_speed` card multiplies every managed weapon's
`reload_time_multiplier` by `(1 - 0.5)` on apply and divides it by
`(1 - 0.5)` on remove, so apply followed by remove restores the whole
target player exactly, for every starting multiplier (the inverse is
division, not subtraction). -/
theorem reload_speed_card_round_trip (p : Player) (s1 s2 : ℤ) :
    ((ReloadSpeedCard.apply_effect s1 p).2).weapon_manager =
      p.weapon_manager.map (fun ws => ws.map fun w =>
        { w with reload_time_multiplier :=
            w.reload_time_multiplier * (1 - ReloadSpeedCard.reload_speed_boost) }) ∧
    ((ReloadSpeedCard.remove_effect s2 p).2).weapon_manager =
      p.weapon_manager.map (fun ws => ws.map fun w =>
        { w with reload_time_multiplier :=
            w.reload_time_multiplier / (1 - ReloadSpeedCard.reload_speed_boost) }) ∧
    (ReloadSpeedCard.remove_effect s2 (ReloadSpeedCard.apply_effect s1 p).2).2 = p := by
  have hcancel : ∀ w : Weapon,
      ({ w with reload_time_multiplier :=
          w.reload_time_multiplier * (1 - ReloadSpeedCard.reload_speed_boost) /
            (1 - ReloadSpeedCard.reload_speed_boost) } : Weapon) = w := by
    intro w
    have h : w.reload_time_multiplier * (1 - ReloadSpeedCard.reload_speed_boost) /
        (1 - ReloadSpeedCard.reload_speed_boost) = w.reload_time_multiplier := by
      norm_num [ReloadSpeedCard.reload_speed_boost]
    rw [h]
  refine ⟨?_, ?_, ?_⟩
  · cases hw : p.weapon_manager <;>
      simp [ReloadSpeedCard.apply_effect, route_effect_wm, hw,
        apply_card_effect_reload_speed_boost]
  · cases hw : p.weapon_manager <;>
      simp [ReloadSpeedCard.remove_effect, route_effect_wm, hw]
  · simp only [ReloadSpeedCard.apply_effect, ReloadSpeedCard.remove_effect]
    cases hw : p.weapon_manager with
    | none =>
        rw [route_effect_none _ p hw, route_effect_none _ p hw]
    | some ws =>
        rw [route_effect_some _ p ws hw]
        rw [route_effect_some _ _ _ rfl]
        simp only [apply_card_effect_reload_speed_boost, List.map_map]
        have hgf : ∀ w ∈ ws,
            ((fun w : Weapon =>
                { w with reload_time_multiplier :=
                    w.reload_time_multiplier / (1 - ReloadSpeedCard.reload_speed_boost) }) ∘
              fun w : Weapon =>
                { w with reload_time_multiplier :=
                    w.reload_time_multiplier * (1 - ReloadSpeedCard.reload_speed_boost) }) w
              = w := by
          intro w _
          simp only [Function.comp_apply]
          exact hcancel w
        rw [List.map_congr_left hgf]
        simp only [List.map_id_fun', List.map_id']
        rw [← hw]

/-! Helper lemmas for card round trips. -/

theorem route_effect_comp (f g : List Weapon → List Weapon) (p : Player) :
    Player.route_effect g (Player.route_effect f p) =
      Player.route_effect (fun ws => g (f ws)) p := by
  cases hw : p.weapon_manager <;> simp [Player.route_effect, hw]

theorem route_effect_congr (f g : List Weapon → List Weapon)
    (h : ∀ ws, f ws = g ws) (p : Player) :
    Player.route_effect f p = Player.route_effect g p := by
  cases hw : p.weapon_manager <;> simp [Player.route_effect, hw, h]

theorem route_map_id {f : Weapon → Weapon} (h : ∀ w, f w = w) (p : Player) :
    Player.route_effect (fun ws => ws.map f) p = p := by
  have hws : ∀ ws : List Weapon, ws.map f = ws := by
    intro ws
    rw [List.map_congr_left fun w _ => h w]
    simp only [List.map_id_fun', List.map_id']
  rw [route_effect_congr _ (fun ws => ws) hws p, route_effect_id]

theorem route_map_cancel {f g : Weapon → Weapon} (h : ∀ w, g (f w) = w)
    (p : Player) :
    Player.route_effect (fun ws => ws.map g)
      (Player.route_effect (fun ws => ws.map f) p) = p := by
  rw [route_effect_comp]
  have hws : ∀ ws : List Weapon, (ws.map f).map g = ws := by
    intro ws
    rw [List.map_map]
    have hc := List.map_congr_left (l := ws) (f := g ∘ f) (g := fun w => w)
      fun w _ => h w
    rw [hc]
    simp only [List.map_id_fun', List.map_id']
  rw [route_effect_congr _ (fun ws => ws) hws p, route_effect_id]

/-- `n` successive `apply_effect` calls of one card on its target,
starting from a fresh card instance (`CardBase.__init__` sets
`current_stacks = 0`). -/
def applyN (apply : ℤ → Player → ℤ × Player) (n : ℕ) (p : Player) : ℤ × Player :=
  (fun sp : ℤ × Player => apply sp.1 sp.2)^[n] (0, p)

theorem applyN_succ (apply : ℤ → Player → ℤ × Player) (n : ℕ) (p : Player) :
    applyN apply (n + 1) p =
      apply (applyN apply n p).1 (applyN apply n p).2 := by
  simp only [applyN, Function.iterate_succ_apply']

theorem applyN_damage_boost (n : ℕ) (p : Player) :
    applyN DamageBoostCard.apply_effect n p =
      ((n : ℤ),
       Player.route_effect (fun ws => ws.map fun w =>
         { w with damage_multiplier :=
             w.damage_multiplier + (n : ℚ) * DamageBoostCard.damage_boost }) p) := by
  induction n with
  | zero =>
      have h : applyN DamageBoostCard.apply_effect 0 p = ((0 : ℤ), p) := rfl
      rw [h, route_map_id]
      · norm_num
      · intro w
        norm_num
  | succ n ih =>
      rw [applyN_succ, ih]
      simp only [DamageBoostCard.apply_effect,
        apply_card_effect_damage_boost, route_effect_comp]
      refine Prod.ext ?_ ?_
      · push_cast
        ring
      · simp only [List.map_map]
        refine route_effect_congr _ _ (fun ws => ?_) p
        refine List.map_congr_left fun w _ => ?_
        simp only [Function.comp_apply]
        rw [show w.damage_multiplier + (n : ℚ) * DamageBoostCard.damage_boost +
              DamageBoostCard.damage_boost =
            w.damage_multiplier + ((n : ℚ) + 1) * DamageBoostCard.damage_boost by ring]
        push_cast
        norm_num

theorem applyN_large_magazine (n : ℕ) (p : Player) :
    applyN LargeMagazineCard.apply_effect n p =
      ((n : ℤ),
       Player.route_effect (fun ws => ws.map fun w =>
         { w with magazine_size_bonus :=
             w.magazine_size_bonus +
               pyInt ((w.magazine_size : ℚ) * LargeMagazineCard.magazine_boost) * n }) p) := by
  induction n with
  | zero =>
      have h : applyN LargeMagazineCard.apply_effect 0 p = ((0 : ℤ), p) := rfl
      rw [h, route_map_id]
      · norm_num
      · intro w
        norm_num
  | succ n ih =>
      rw [applyN_succ, ih]
      simp only [LargeMagazineCard.apply_effect, route_effect_comp]
      refine Prod.ext (by push_cast; ring) ?_
      refine route_effect_congr _ _ (fun ws => ?_) p
      rw [List.map_map]
      refine List.map_congr_left fun w _ => ?_
      simp only [Function.comp_apply]
      rw [show w.magazine_size_bonus +
            pyInt ((w.magazine_size : ℚ) * LargeMagazineCard.magazine_boost) * (n : ℤ) +
            pyInt ((w.magazine_size : ℚ) * LargeMagazineCard.magazine_boost) =
          w.magazine_size_bonus +
            pyInt ((w.magazine_size : ℚ) * LargeMagazineCard.magazine_boost) * ((n : ℤ) + 1)
          by ring]
      push_cast
      norm_num

theorem applyN_armor (n : ℕ) (p : Player) :
    applyN ArmorCard.apply_effect n p =
      ((n : ℤ),
       { p with damage_reduction :=
           p.damage_reduction + (n : ℚ) * ArmorCard.damage_reduction }) := by
  induction n with
  | zero => simp [applyN]
  | succ n ih =>
      rw [applyN_succ, ih]
      simp only [ArmorCard.apply_effect]
      refine Prod.ext (by push_cast; ring) ?_
      rw [show p.damage_reduction + (n : ℚ) * ArmorCard.damage_reduction +
            ArmorCard.damage_reduction =
          p.damage_reduction + ((n : ℚ) + 1) * ArmorCard.damage_reduction by ring]
      push_cast
      norm_num

theorem applyN_speed_boost (n : ℕ) (p : Player) :
    applyN SpeedBoostCard.apply_effect n p =
      ((n : ℤ),
       { p with speed_multiplier :=
           p.speed_multiplier + (n : ℚ) * SpeedBoostCard.speed_multiplier }) := by
  induction n with
  | zero => simp [applyN]
  | succ n ih =>
      rw [applyN_succ, ih]
      simp only [SpeedBoostCard.apply_effect]
      refine Prod.ext (by push_cast; ring) ?_
      rw [show p.speed_multiplier + (n : ℚ) * SpeedBoostCard.speed_multiplier +
            SpeedBoostCard.speed_multiplier =
          p.speed_multiplier + ((n : ℚ) + 1) * SpeedBoostCard.speed_multiplier by ring]
      push_cast
      norm_num

theorem applyN_extra_health (n : ℕ) (p : Player) :
    applyN ExtraHealthCard.apply_effect n p =
      ((n : ℤ),
       { p with
           max_health := p.max_health + ExtraHealthCard.health_bonus * n
           health := p.health + ExtraHealthCard.health_bonus * n }) := by
  induction n with
  | zero => simp [applyN]
  | succ n ih =>
      rw [applyN_succ, ih]
      simp only [ExtraHealthCard.apply_effect]
      refine Prod.ext (by push_cast; ring) ?_
      rw [show p.max_health + ExtraHealthCard.health_bonus * (n : ℚ) +
            ExtraHealthCard.health_bonus =
          p.max_health + ExtraHealthCard.health_bonus * ((n : ℚ) + 1) by ring]
      rw [show p.health + ExtraHealthCard.health_bonus * (n : ℚ) +
            ExtraHealthCard.health_bonus =
          p.health + ExtraHealthCard.health_bonus * ((n : ℚ) + 1) by ring]
      push_cast
      norm_num

/-! Function-level versions of the dispatch lemmas, convenient for
rewriting under `Player.route_effect`. -/

theorem apply_card_effect_damage_boost_fun (value : ℚ) :
    WeaponManager.apply_card_effect "damage_boost" value =
      fun ws => ws.map fun w =>
        { w with damage_multiplier := w.damage_multiplier + value } := rfl

theorem apply_card_effect_fire_rate_boost_fun (value : ℚ) :
    WeaponManager.apply_card_effect "fire_rate_boost" value =
      fun ws => ws.map fun w =>
        { w with fire_rate_multiplier := w.fire_rate_multiplier + value } := rfl

theorem apply_card_effect_reload_speed_boost_fun (value : ℚ) :
    WeaponManager.apply_card_effect "reload_speed_boost" value =
      fun ws => ws.map fun w =>
        { w with reload_time_multiplier := w.reload_time_multiplier * (1 - value) } := rfl

theorem apply_card_effect_bullet_size_boost_fun (value : ℚ) :
    WeaponManager.apply_card_effect "bullet_size_boost" value =
      fun ws => ws.map fun w =>
        { w with bullet_size_multiplier := w.bullet_size_multiplier + value } := rfl

/-- The round-trip behaviour of every card in the catalog, from a fresh
card instance (`current_stacks = 0`) on an arbitrary target: `n`
applications and one removal restore the target exactly for the nine
additive/multiplicative cards; `double_jump` removal sets `max_jumps`
to the constant 1; `extra_health` removal restores `max_health` but
only clamps `health`, leaving `min (health + 50·n) max_health`. -/
def CardsRoundTrip (p : Player) (n : ℕ) : Prop :=
  ((DamageBoostCard.remove_effect (applyN DamageBoostCard.apply_effect n p).1
      (applyN DamageBoostCard.apply_effect n p).2).2 = p) ∧
  ((LargeMagazineCard.remove_effect (applyN LargeMagazineCard.apply_effect n p).1
      (applyN LargeMagazineCard.apply_effect n p).2).2 = p) ∧
  ((ArmorCard.remove_effect (applyN ArmorCard.apply_effect n p).1
      (applyN ArmorCard.apply_effect n p).2).2 = p) ∧
  ((SpeedBoostCard.remove_effect (applyN SpeedBoostCard.apply_effect n p).1
      (applyN SpeedBoostCard.apply_effect n p).2).2 = p) ∧
  ((FireRateBoostCard.remove_effect (FireRateBoostCard.apply_effect 0 p).1
      (FireRateBoostCard.apply_effect 0 p).2).2 = p) ∧
  ((FastHealingCard.remove_effect (FastHealingCard.apply_effect 0 p).1
      (FastHealingCard.apply_effect 0 p).2).2 = p) ∧
  ((HighJumpCard.remove_effect (HighJumpCard.apply_effect 0 p).1
      (HighJumpCard.apply_effect 0 p).2).2 = p) ∧
  ((ReloadSpeedCard.remove_effect (ReloadSpeedCard.apply_effect 0 p).1
      (ReloadSpeedCard.apply_effect 0 p).2).2 = p) ∧
  ((BigBulletsCard.remove_effect (BigBulletsCard.apply_effect 0 p).1
      (BigBulletsCard.apply_effect 0 p).2).2 = p) ∧
  ((DoubleJumpCard.remove_effect (DoubleJumpCard.apply_effect 0 p).1
      (DoubleJumpCard.apply_effect 0 p).2).2 = { p with max_jumps := 1 }) ∧
  ((ExtraHealthCard.remove_effect (applyN ExtraHealthCard.apply_effect n p).1
      (applyN ExtraHealthCard.apply_effect n p).2).2 =
    { p with health := min (p.health + ExtraHealthCard.health_bonus * n) p.max_health })

/-- C1 amended: for every target and every stack count `n`, each
catalog card's `apply_effect`×n followed by one `remove_effect`
restores every modified target field exactly — except that
`double_jump` removal writes the constant `max_jumps = 1` (restoration
only from the initial `max_jumps = 1`), and `extra_health` removal
restores `max_health` but merely clamps `health` to the restored
maximum instead of subtracting the granted health. -/
theorem cards_round_trip (p : Player) (n : ℕ) : CardsRoundTrip p n := by
  unfold CardsRoundTrip
  refine ⟨?_, ?_, ?_, ?_, ?_, ?_, ?_, ?_, ?_, ?_, ?_⟩
  · rw [applyN_damage_boost]
    simp only [DamageBoostCard.remove_effect, apply_card_effect_damage_boost_fun]
    refine route_map_cancel (fun w => ?_) p
    cases w
    simp
    try push_cast
    try ring
  · rw [applyN_large_magazine]
    simp only [LargeMagazineCard.remove_effect]
    refine route_map_cancel (fun w => ?_) p
    cases w
    simp
    try push_cast
    try ring
  · rw [applyN_armor]
    simp only [ArmorCard.remove_effect]
    cases p
    simp
    try push_cast
    try ring
  · rw [applyN_speed_boost]
    simp only [SpeedBoostCard.remove_effect]
    cases p
    simp
    try push_cast
    try ring
  · simp only [FireRateBoostCard.apply_effect, FireRateBoostCard.remove_effect,
      apply_card_effect_fire_rate_boost_fun]
    refine route_map_cancel (fun w => ?_) p
    cases w
    simp
    try ring
  · simp only [FastHealingCard.apply_effect, FastHealingCard.remove_effect]
    cases p
    simp
  · simp only [HighJumpCard.apply_effect, HighJumpCard.remove_effect]
    cases p
    simp
  · simp only [ReloadSpeedCard.apply_effect, ReloadSpeedCard.remove_effect,
      apply_card_effect_reload_speed_boost_fun]
    refine route_map_cancel (fun w => ?_) p
    cases w
    simp
    try norm_num [ReloadSpeedCard.reload_speed_boost]
  · simp only [BigBulletsCard.apply_effect, BigBulletsCard.remove_effect,
      apply_card_effect_bullet_size_boost_fun]
    refine route_map_cancel (fun w => ?_) p
    cases w
    simp
    try ring
  · rfl
  · rw [applyN_extra_health]
    simp only [ExtraHealthCard.remove_effect]
    have h1 : p.max_health + ExtraHealthCard.health_bonus * (n : ℚ) -
        ExtraHealthCard.health_bonus * ((n : ℤ) : ℚ) = p.max_health := by
      push_cast
      ring
    rw [h1]

/-- C1 counterexample: a freshly spawned player who has taken 50 damage
(health 50, max 100 — a reachable state) gets `extra_health` applied
once and removed once; health ends at 100, not the original 50, so the
`health` field modified by the card is not restored. -/
theorem extra_health_round_trip_counterexample :
    (Player.take_damage 50 Player.init).health = 50 ∧
    ((ExtraHealthCard.remove_effect
        (ExtraHealthCard.apply_effect 0 (Player.take_damage 50 Player.init)).1
        (ExtraHealthCard.apply_effect 0 (Player.take_damage 50 Player.init)).2).2).health
      = 100 ∧
    ((ExtraHealthCard.remove_effect
        (ExtraHealthCard.apply_effect 0 (Player.take_damage 50 Player.init)).1
        (ExtraHealthCard.apply_effect 0 (Player.take_damage 50 Player.init)).2).2).health
      ≠ (Player.take_damage 50 Player.init).health := by
  refine ⟨?_, ?_, ?_⟩ <;>
    norm_num [Player.take_damage, Player.init, ExtraHealthCard.apply_effect,
      ExtraHealthCard.remove_effect, ExtraHealthCard.health_bonus, min_def]

/-! ## C4: the ammo invariant under weapon operations.

The operations that touch a single weapon's ammo-relevant state:
`shoot`/`reload`/`update` from `WeaponBase`, a `WeaponManager`
card-effect dispatch, and the per-weapon loop bodies of
`LargeMagazineCard.apply_effect`/`remove_effect`. -/

/-- One weapon-state operation. -/
inductive WeaponOp where
  | shoot (now : ℚ)
  | reload (now : ℚ)
  | update (now : ℚ)
  | card_effect (effect_type : String) (value : ℚ)
  | large_magazine_apply
  | large_magazine_remove (current_stacks : ℤ)
deriving DecidableEq

/-- Running one operation on a weapon (return values discarded). -/
def execOp (w : Weapon) : WeaponOp → Weapon
  | .shoot now => (Weapon.shoot now w).2.1
  | .reload now => (Weapon.reload now w).2.1
  | .update now => (Weapon.update now w).1
  | .card_effect t v => WeaponManager.apply_card_effect_one t v w
  | .large_magazine_apply =>
      { w with magazine_size_bonus := w.magazine_size_bonus +
          pyInt ((w.magazine_size : ℚ) * LargeMagazineCard.magazine_boost) }
  | .large_magazine_remove s =>
      { w with magazine_size_bonus := w.magazine_size_bonus -
          pyInt ((w.magazine_size : ℚ) * LargeMagazineCard.magazine_boost) * s }

/-- Running a sequence of operations. -/
def execOps (w : Weapon) (ops : List WeaponOp) : Weapon :=
  ops.foldl execOp w

/-- The claimed invariant: `0 ≤ current_ammo ≤ magazine_size +
magazine_size_bonus`. -/
def ammo_inv (w : Weapon) : Prop :=
  0 ≤ w.current_ammo ∧ w.current_ammo ≤ w.get_max_magazine_size

instance (w : Weapon) : Decidable (ammo_inv w) := by
  unfold ammo_inv; infer_instance

/-- Operations that never shrink the magazine bound: everything except
a magazine-bonus decrease.  (Removing a `large_magazine` stack is NOT
safe — see the counterexample.) -/
def safeOp : WeaponOp → Prop
  | .card_effect t v => t = "magazine_size_boost" → 0 ≤ pyInt v
  | .large_magazine_remove s => s ≤ 0
  | _ => True

theorem pyInt_nonneg (q : ℚ) (h : 0 ≤ q) : 0 ≤ pyInt q := by
  rw [pyInt, if_pos h]
  exact Int.floor_nonneg.2 h

theorem reload_fields (now : ℚ) (w : Weapon) :
    ((Weapon.reload now w).2.1).current_ammo = w.current_ammo ∧
    ((Weapon.reload now w).2.1).magazine_size = w.magazine_size ∧
    ((Weapon.reload now w).2.1).magazine_size_bonus = w.magazine_size_bonus := by
  rw [Weapon.reload]
  split_ifs <;> simp

theorem shoot_fields (now : ℚ) (w : Weapon) :
    ((Weapon.shoot now w).2.1).magazine_size = w.magazine_size ∧
    ((Weapon.shoot now w).2.1).magazine_size_bonus = w.magazine_size_bonus ∧
    (((Weapon.shoot now w).2.1).current_ammo = w.current_ammo ∨
      (0 < w.current_ammo ∧
        ((Weapon.shoot now w).2.1).current_ammo = w.current_ammo - 1)) := by
  simp only [Weapon.shoot]
  split_ifs with hc1 hc2 hc3
  · obtain ⟨ha, hb, hc⟩ := reload_fields now w
    exact ⟨hb, hc, Or.inl ha⟩
  · obtain ⟨ha, hb, hc⟩ := reload_fields now
      { w with last_shot_time := now, current_ammo := w.current_ammo - 1 }
    exact ⟨hb, hc, Or.inr ⟨hc2.2.1, ha⟩⟩
  · exact ⟨rfl, rfl, Or.inr ⟨hc2.2.1, rfl⟩⟩
  · exact ⟨rfl, rfl, Or.inl rfl⟩

theorem update_fields (now : ℚ) (w : Weapon) :
    ((Weapon.update now w).1).magazine_size = w.magazine_size ∧
    ((Weapon.update now w).1).magazine_size_bonus = w.magazine_size_bonus ∧
    (((Weapon.update now w).1).current_ammo = w.current_ammo ∨
      ((Weapon.update now w).1).current_ammo =
        w.magazine_size + w.magazine_size_bonus) := by
  rw [Weapon.update]
  split_ifs
  · exact ⟨rfl, rfl, Or.inr rfl⟩
  · exact ⟨rfl, rfl, Or.inl rfl⟩

/-- Each safe operation preserves the magazine size and the ammo
invariant. -/
theorem execOp_preserves (w : Weapon) (op : WeaponOp)
    (hmag : 0 ≤ w.magazine_size) (hinv : ammo_inv w) (hsafe : safeOp op) :
    (execOp w op).magazine_size = w.magazine_size ∧ ammo_inv (execOp w op) := by
  obtain ⟨h0, h1⟩ := hinv
  rw [Weapon.get_max_magazine_size] at h1
  cases op with
  | shoot now =>
      obtain ⟨hm, hb, hA⟩ := shoot_fields now w
      refine ⟨hm, ?_, ?_⟩
      · rcases hA with h | ⟨hpos, h⟩ <;> rw [show execOp w (.shoot now) = (Weapon.shoot now w).2.1 from rfl, h] <;> omega
      · simp only [Weapon.get_max_magazine_size]
        rcases hA with h | ⟨hpos, h⟩ <;>
          rw [show execOp w (.shoot now) = (Weapon.shoot now w).2.1 from rfl, h, hm, hb] <;> omega
  | reload now =>
      obtain ⟨ha, hm, hb⟩ := reload_fields now w
      refine ⟨hm, ?_, ?_⟩
      · rw [show execOp w (.reload now) = (Weapon.reload now w).2.1 from rfl, ha]
        omega
      · simp only [Weapon.get_max_magazine_size]
        rw [show execOp w (.reload now) = (Weapon.reload now w).2.1 from rfl, ha, hm, hb]
        omega
  | update now =>
      obtain ⟨hm, hb, hA⟩ := update_fields now w
      refine ⟨hm, ?_, ?_⟩
      · rcases hA with h | h <;> rw [show execOp w (.update now) = (Weapon.update now w).1 from rfl, h] <;> omega
      · simp only [Weapon.get_max_magazine_size]
        rcases hA with h | h <;>
          rw [show execOp w (.update now) = (Weapon.update now w).1 from rfl, h, hm, hb] <;> omega
  | card_effect t v =>
      simp only [execOp, WeaponManager.apply_card_effect_one]
      split_ifs with hc1 hc2 hc3 hc4 hc5 <;>
        refine ⟨rfl, ?_, ?_⟩ <;>
        first
          | omega
          | (simp only [Weapon.get_max_magazine_size]
             omega)
          | (have hv : 0 ≤ pyInt v := hsafe hc4
             simp only [Weapon.get_max_magazine_size]
             omega)
  | large_magazine_apply =>
      have hbn : 0 ≤ pyInt ((w.magazine_size : ℚ) * LargeMagazineCard.magazine_boost) := by
        refine pyInt_nonneg _ ?_
        have hq : (0 : ℚ) ≤ (w.magazine_size : ℚ) := by exact_mod_cast hmag
        rw [LargeMagazineCard.magazine_boost]
        positivity
      refine ⟨rfl, ?_, ?_⟩ <;> simp only [execOp, Weapon.get_max_magazine_size] <;> omega
  | large_magazine_remove s =>
      have hbn : 0 ≤ pyInt ((w.magazine_size : ℚ) * LargeMagazineCard.magazine_boost) := by
        refine pyInt_nonneg _ ?_
        have hq : (0 : ℚ) ≤ (w.magazine_size : ℚ) := by exact_mod_cast hmag
        rw [LargeMagazineCard.magazine_boost]
        positivity
      have hs : s ≤ 0 := hsafe
      refine ⟨rfl, ?_, ?_⟩ <;> simp only [execOp, Weapon.get_max_magazine_size]
      · omega
      · have hprod :
            pyInt ((w.magazine_size : ℚ) * LargeMagazineCard.magazine_boost) * s ≤ 0 := by
          nlinarith [hbn, hs]
        linarith [h1, hprod]

/-- C4 amended: `0 ≤ current_ammo ≤ magazine_size + magazine_size_bonus`
is preserved by every sequence of `shoot`/`reload`/`update` calls and
magazine-bound-non-decreasing card effects (removing a `large_magazine`
stack is excluded — it breaks the upper bound, see the counterexample);
and a successful `shoot` from `current_ammo = 1` automatically enters
the reloading state with no manual `reload()` call. -/
theorem ammo_invariant_and_auto_reload (w : Weapon) (ops : List WeaponOp)
    (hmag : 0 ≤ w.magazine_size) (hinv : ammo_inv w)
    (hsafe : ∀ op ∈ ops, safeOp op) :
    ammo_inv (execOps w ops) ∧
    (∀ (v : Weapon) (now : ℚ), ammo_inv v → Weapon.can_shoot now v →
      v.current_ammo = 1 →
      (Weapon.shoot now v).1 = true ∧
      ((Weapon.shoot now v).2.1).is_reloading = true) := by
  constructor
  · induction ops generalizing w with
    | nil => exact hinv
    | cons op rest ih =>
        have hstep := execOp_preserves w op hmag hinv (hsafe op (by simp))
        exact ih (execOp w op) (hstep.1 ▸ hmag) hstep.2
          (fun o ho => hsafe o (by simp [ho]))
  · intro v now hvinv hcan h1
    obtain ⟨hrel, hpos, hint⟩ := hcan
    simp only [Weapon.shoot]
    rw [if_neg (by simp [h1])]
    rw [if_pos ⟨hrel, hpos, hint⟩]
    rw [if_pos (by simp [h1])]
    refine ⟨rfl, ?_⟩
    rw [Weapon.reload, if_neg ?g]
    case g =>
      rintro (hr | hm)
      · exact absurd hr (by simp [hrel])
      · simp only [Weapon.get_max_magazine_size, h1] at hm
        have h2 := hvinv.2
        rw [Weapon.get_max_magazine_size, h1] at h2
        omega

/-- Witness for C4 at the configured pistol: one shot at `t = 1` keeps
the invariant, and a pistol holding one round auto-reloads on a
successful shot at `t = 9`. -/
theorem ammo_invariant_and_auto_reload_witness :
    ammo_inv (execOps Weapon.pistol [WeaponOp.shoot 1]) ∧
    ((Weapon.shoot 9 { Weapon.pistol with current_ammo := 1 }).1 = true ∧
      ((Weapon.shoot 9 { Weapon.pistol with current_ammo := 1 }).2.1).is_reloading
        = true) :=
  ⟨(ammo_invariant_and_auto_reload Weapon.pistol [WeaponOp.shoot 1]
      (by decide) (by decide)
      (by
        intro op hop
        rcases List.mem_singleton.1 hop with rfl
        trivial)).1,
   (ammo_invariant_and_auto_reload Weapon.pistol [WeaponOp.shoot 1]
      (by decide) (by decide)
      (by
        intro op hop
        rcases List.mem_singleton.1 hop with rfl
        trivial)).2
     { Weapon.pistol with current_ammo := 1 } 9 (by decide)
     ⟨rfl, by decide, by norm_num [Weapon.pistol, Weapon.init]⟩ rfl⟩

/-- C4 counterexample: pistol (magazine 8) with a `large_magazine`
stack applied (bonus 4), reloaded to 12 rounds, then the stack removed:
`current_ammo = 12` exceeds `magazine_size + magazine_size_bonus = 8`,
violating the claimed invariant. -/
theorem ammo_invariant_counterexample :
    (execOps Weapon.pistol
      [.large_magazine_apply, .reload 0, .update 2,
       .large_magazine_remove 1]).current_ammo = 12 ∧
    (execOps Weapon.pistol
      [.large_magazine_apply, .reload 0, .update 2,
       .large_magazine_remove 1]).get_max_magazine_size = 8 ∧
    ¬ ammo_inv (execOps Weapon.pistol
      [.large_magazine_apply, .reload 0, .update 2,
       .large_magazine_remove 1]) := by
  refine ⟨?_, ?_, ?_⟩ <;>
    norm_num [execOps, execOp, Weapon.pistol, Weapon.init, Weapon.reload,
      Weapon.update, Weapon.complete_reload, Weapon.get_reload_time,
      Weapon.get_max_magazine_size, WeaponManager.apply_card_effect_one,
      LargeMagazineCard.magazine_boost, pyInt, ammo_inv]

/-! ## C2 / C8: sleep and static bodies under `PhysicsSystem.update`. -/

namespace PhysicsSystem

/-- Membership of an `(index, body)` entry in some cell of a spatial
hash. -/
def cellMem (e : ℕ × PhysicsBody)
    (h : List ((ℤ × ℤ) × List (ℕ × PhysicsBody))) : Prop :=
  ∃ cell ∈ h, e ∈ cell.2

theorem cellMem_hashInsert {h : List ((ℤ × ℤ) × List (ℕ × PhysicsBody))}
    {c : ℤ × ℤ} {e e2 : ℕ × PhysicsBody}
    (hm : cellMem e2 (hashInsert h c e)) : cellMem e2 h ∨ e2 = e := by
  induction h with
  | nil =>
      obtain ⟨cell, hcell, hmem⟩ := hm
      simp only [hashInsert, List.mem_singleton] at hcell
      rw [hcell] at hmem
      simp only [List.mem_singleton] at hmem
      exact Or.inr hmem
  | cons hd tl ih =>
      obtain ⟨c1, l1⟩ := hd
      obtain ⟨cell, hcell, hmem⟩ := hm
      rw [hashInsert] at hcell
      split_ifs at hcell with hc
      · rcases List.mem_cons.1 hcell with h1 | h1
        · rw [h1] at hmem
          rcases List.mem_append.1 hmem with h2 | h2
          · exact Or.inl ⟨(c1, l1), List.mem_cons_self _ _, h2⟩
          · simp only [List.mem_singleton] at h2
            exact Or.inr h2
        · exact Or.inl ⟨cell, List.mem_cons_of_mem _ h1, hmem⟩
      · rcases List.mem_cons.1 hcell with h1 | h1
        · rw [h1] at hmem
          exact Or.inl ⟨(c1, l1), List.mem_cons_self _ _, hmem⟩
        · rcases ih ⟨cell, h1, hmem⟩ with h2 | h2
          · obtain ⟨cell2, hcell2, hmem2⟩ := h2
            exact Or.inl ⟨cell2, List.mem_cons_of_mem _ hcell2, hmem2⟩
          · exact Or.inr h2

theorem cellMem_coordFold {coords : List (ℤ × ℤ)}
    {h0 : List ((ℤ × ℤ) × List (ℕ × PhysicsBody))} {e e2 : ℕ × PhysicsBody}
    (hm : cellMem e2 (coords.foldl (fun h2 coord => hashInsert h2 coord e) h0)) :
    cellMem e2 h0 ∨ e2 = e := by
  induction coords generalizing h0 with
  | nil => exact Or.inl hm
  | cons c t ih =>
      rcases ih hm with h1 | h1
      · exact cellMem_hashInsert h1
      · exact Or.inr h1

theorem cellMem_build {bodies : List PhysicsBody} {e : ℕ × PhysicsBody}
    (hm : cellMem e (build_spatial_hash bodies)) :
    e ∈ bodies.enum ∧ e.2.is_sleeping = false ∧ e.2.is_static = false := by
  suffices hgen : ∀ (l : List (ℕ × PhysicsBody))
      (h0 : List ((ℤ × ℤ) × List (ℕ × PhysicsBody))),
      cellMem e (l.foldl
        (fun h entry =>
          if entry.2.is_sleeping || entry.2.is_static then h
          else (get_hash_coordinates entry.2).foldl
            (fun h2 coord => hashInsert h2 coord entry) h) h0) →
      cellMem e h0 ∨ (e ∈ l ∧ e.2.is_sleeping = false ∧ e.2.is_static = false) by
    rcases hgen bodies.enum [] hm with h1 | h1
    · obtain ⟨cell, hcell, -⟩ := h1
      exact absurd hcell (List.not_mem_nil cell)
    · exact h1
  intro l
  induction l with
  | nil => exact fun h0 hm2 => Or.inl hm2
  | cons hd tl ih =>
      intro h0 hm2
      rcases ih _ hm2 with h1 | h1
      · simp only [] at h1
        by_cases hskip : (hd.2.is_sleeping || hd.2.is_static) = true
        · rw [if_pos hskip] at h1
          exact Or.inl h1
        · rw [if_neg hskip] at h1
          rcases cellMem_coordFold h1 with h2 | h2
          · exact Or.inl h2
          · subst h2
            simp only [Bool.or_eq_true, not_or, Bool.not_eq_true] at hskip
            exact Or.inr ⟨List.mem_cons_self _ _, hskip.1, hskip.2⟩
      · exact Or.inr ⟨List.mem_cons_of_mem _ h1.1, h1.2⟩

theorem mem_cellPairs {l : List (ℕ × PhysicsBody)}
    {pp : (ℕ × PhysicsBody) × (ℕ × PhysicsBody)} (hpp : pp ∈ cellPairs l) :
    pp.1 ∈ l ∧ pp.2 ∈ l := by
  induction l with
  | nil => simp [cellPairs] at hpp
  | cons e t ih =>
      rw [cellPairs] at hpp
      rcases List.mem_append.1 hpp with h1 | h1
      · obtain ⟨e2, he2, rfl⟩ := List.mem_map.1 h1
        exact ⟨List.mem_cons_self _ _, List.mem_cons_of_mem _ he2⟩
      · exact ⟨List.mem_cons_of_mem _ (ih h1).1, List.mem_cons_of_mem _ (ih h1).2⟩

theorem mem_insertPair {acc : List (ℕ × ℕ)} {p q : ℕ × ℕ}
    (hp : p ∈ insertPair acc q) : p ∈ acc ∨ p = q := by
  rw [insertPair] at hp
  split_ifs at hp with hq
  · exact Or.inl hp
  · rcases List.mem_append.1 hp with h1 | h1
    · exact Or.inl h1
    · simp only [List.mem_singleton] at h1
      exact Or.inr h1

theorem mem_pair_foldl {l : List ((ℕ × PhysicsBody) × (ℕ × PhysicsBody))}
    {acc : List (ℕ × ℕ)} {p : ℕ × ℕ}
    (hp : p ∈ l.foldl
      (fun acc pp => insertPair acc (min pp.1.1 pp.2.1, max pp.1.1 pp.2.1)) acc) :
    p ∈ acc ∨ ∃ pp ∈ l, p = (min pp.1.1 pp.2.1, max pp.1.1 pp.2.1) := by
  induction l generalizing acc with
  | nil => exact Or.inl hp
  | cons hd tl ih =>
      rcases ih hp with h1 | h1
      · rcases mem_insertPair h1 with h2 | h2
        · exact Or.inl h2
        · exact Or.inr ⟨hd, List.mem_cons_self _ _, h2⟩
      · obtain ⟨pp, hpp, h2⟩ := h1
        exact Or.inr ⟨pp, List.mem_cons_of_mem _ hpp, h2⟩

/-- Every broad-phase pair points (on both sides) at an awake,
non-static body of the list. -/
theorem broad_pairs_spec {bodies : List PhysicsBody} {p : ℕ × ℕ}
    (hp : p ∈ broad_phase_collision_pairs bodies) :
    (∃ a, bodies.get? p.1 = some a ∧ a.is_sleeping = false ∧ a.is_static = false) ∧
    (∃ b, bodies.get? p.2 = some b ∧ b.is_sleeping = false ∧ b.is_static = false) := by
  rw [broad_phase_collision_pairs] at hp
  rcases mem_pair_foldl hp with h1 | h1
  · exact absurd h1 (List.not_mem_nil p)
  obtain ⟨pp, hpp, rfl⟩ := h1
  obtain ⟨lsub, hlsub, hmem⟩ := List.mem_flatten.1 hpp
  obtain ⟨cell, hcell, rfl⟩ := List.mem_map.1 hlsub
  have hpairs := List.mem_filter.1 hmem
  obtain ⟨h1mem, h2mem⟩ := mem_cellPairs hpairs.1
  have hq1 := cellMem_build ⟨cell, hcell, h1mem⟩
  have hq2 := cellMem_build ⟨cell, hcell, h2mem⟩
  have hg1 : bodies.get? pp.1.1 = some pp.1.2 := by
    have := hq1.1
    rw [List.mem_enum_iff_get?] at this
    exact this
  have hg2 : bodies.get? pp.2.1 = some pp.2.2 := by
    have := hq2.1
    rw [List.mem_enum_iff_get?] at this
    exact this
  constructor
  · rcases min_cases pp.1.1 pp.2.1 with ⟨hmin, -⟩ | ⟨hmin, -⟩ <;> rw [hmin]
    · exact ⟨pp.1.2, hg1, hq1.2⟩
    · exact ⟨pp.2.2, hg2, hq2.2⟩
  · rcases max_cases pp.1.1 pp.2.1 with ⟨hmax, -⟩ | ⟨hmax, -⟩ <;> rw [hmax]
    · exact ⟨pp.1.2, hg1, hq1.2⟩
    · exact ⟨pp.2.2, hg2, hq2.2⟩

/-- Every narrow-phase collision's indices come from a broad-phase
pair. -/
theorem narrow_spec {bodies : List PhysicsBody} {pairs : List (ℕ × ℕ)}
    {c : CollisionInfo} (hc : c ∈ narrow_phase bodies pairs) :
    ∃ p ∈ pairs, c.idx_a = p.1 ∧ c.idx_b = p.2 := by
  obtain ⟨p, hp, hfp⟩ := List.mem_filterMap.1 hc
  refine ⟨p, hp, ?_⟩
  cases hga : bodies.get? p.1 with
  | none => rw [hga] at hfp; simp at hfp
  | some a =>
      cases hgb : bodies.get? p.2 with
      | none => rw [hga, hgb] at hfp; simp at hfp
      | some b =>
          rw [hga, hgb] at hfp
          simp only [Option.map_eq_some'] at hfp
          obtain ⟨np, -, h2⟩ := hfp
          rw [← h2]
          exact ⟨rfl, rfl⟩

theorem positional_correction_sleeping (a b : PhysicsBody) (n : Vector2)
    (pen : ℚ) :
    (positional_correction a b n pen).1.is_sleeping = a.is_sleeping ∧
    (positional_correction a b n pen).2.is_sleeping = b.is_sleeping := by
  rw [positional_correction]
  split_ifs <;> exact ⟨rfl, rfl⟩

theorem velocity_response_sleeping (a b : PhysicsBody) (n : Vector2) :
    (velocity_response a b n).1.is_sleeping = a.is_sleeping ∧
    (velocity_response a b n).2.is_sleeping = b.is_sleeping := by
  rw [velocity_response]
  dsimp only
  split_ifs <;> exact ⟨rfl, rfl⟩

theorem set_grounded_sleeping (a b : PhysicsBody) (n : Vector2) :
    (set_grounded a b n).1.is_sleeping = a.is_sleeping ∧
    (set_grounded a b n).2.is_sleeping = b.is_sleeping := by
  rw [set_grounded]
  split_ifs <;> exact ⟨rfl, rfl⟩

theorem resolve_pair_not_sleeping (a b : PhysicsBody) (n : Vector2) (pen : ℚ) :
    (resolve_pair a b n pen).1.is_sleeping = false ∧
    (resolve_pair a b n pen).2.is_sleeping = false := by
  rw [resolve_pair]
  constructor
  · rw [(set_grounded_sleeping _ _ n).1, (velocity_response_sleeping _ _ n).1,
      (positional_correction_sleeping _ _ n pen).1]
    rfl
  · rw [(set_grounded_sleeping _ _ n).2, (velocity_response_sleeping _ _ n).2,
      (positional_correction_sleeping _ _ n pen).2]
    rfl

theorem resolve_collision_get_ne (bodies : List PhysicsBody)
    (c : CollisionInfo) (i : ℕ) (ha : i ≠ c.idx_a) (hb : i ≠ c.idx_b) :
    (resolve_collision bodies c).get? i = bodies.get? i := by
  rw [resolve_collision]
  cases hga : bodies.get? c.idx_a with
  | none => rfl
  | some a =>
      cases hgb : bodies.get? c.idx_b with
      | none => rfl
      | some b =>
          dsimp only
          rw [List.get?_set_ne _ _ (Ne.symm hb), List.get?_set_ne _ _ (Ne.symm ha)]

theorem resolve_collision_get (bodies : List PhysicsBody)
    (c : CollisionInfo) (i : ℕ) :
    (resolve_collision bodies c).get? i = bodies.get? i ∨
    (∃ b2, (resolve_collision bodies c).get? i = some b2 ∧
      b2.is_sleeping = false) := by
  rw [resolve_collision]
  cases hga : bodies.get? c.idx_a with
  | none => exact Or.inl rfl
  | some a =>
      cases hgb : bodies.get? c.idx_b with
      | none => exact Or.inl rfl
      | some b =>
          dsimp only
          by_cases hb : i = c.idx_b
          · subst hb
            obtain ⟨hlt, -⟩ := List.get?_eq_some.1 hgb
            refine Or.inr ⟨(resolve_pair a b c.normal c.penetration).2, ?_,
              (resolve_pair_not_sleeping a b c.normal c.penetration).2⟩
            rw [List.get?_set_eq_of_lt]
            rw [List.length_set]
            exact hlt
          · by_cases ha : i = c.idx_a
            · subst ha
              obtain ⟨hlt, -⟩ := List.get?_eq_some.1 hga
              refine Or.inr ⟨(resolve_pair a b c.normal c.penetration).1, ?_,
                (resolve_pair_not_sleeping a b c.normal c.penetration).1⟩
              rw [List.get?_set_ne _ _ (Ne.symm hb)]
              rw [List.get?_set_eq_of_lt _ hlt]
            · refine Or.inl ?_
              rw [List.get?_set_ne _ _ (Ne.symm hb), List.get?_set_ne _ _ (Ne.symm ha)]

theorem foldl_resolve_untouched (cols : List CollisionInfo)
    (bodies : List PhysicsBody) (i : ℕ)
    (h : ∀ c ∈ cols, i ≠ c.idx_a ∧ i ≠ c.idx_b) :
    (cols.foldl resolve_collision bodies).get? i = bodies.get? i := by
  induction cols generalizing bodies with
  | nil => rfl
  | cons c rest ih =>
      rw [List.foldl_cons, ih _ (fun c2 hc2 => h c2 (List.mem_cons_of_mem _ hc2))]
      exact resolve_collision_get_ne bodies c i
        (h c (List.mem_cons_self _ _)).1 (h c (List.mem_cons_self _ _)).2

theorem foldl_resolve_wake (cols : List CollisionInfo)
    (bodies : List PhysicsBody) (i : ℕ) :
    (cols.foldl resolve_collision bodies).get? i = bodies.get? i ∨
    (∃ b2, (cols.foldl resolve_collision bodies).get? i = some b2 ∧
      b2.is_sleeping = false) := by
  induction cols generalizing bodies with
  | nil => exact Or.inl rfl
  | cons c rest ih =>
      rw [List.foldl_cons]
      rcases ih (resolve_collision bodies c) with h1 | h1
      · rw [h1]
        exact resolve_collision_get bodies c i
      · exact Or.inr h1

theorem step_body_sleeping (gravity : Vector2) (dt : ℚ) (b : PhysicsBody)
    (h : b.is_sleeping = true) : step_body gravity dt b = b := by
  simp [step_body, h]

theorem step_body_static (gravity : Vector2) (dt : ℚ) (b : PhysicsBody)
    (h : b.is_static = true) : step_body gravity dt b = b := by
  rw [step_body]
  dsimp only
  split_ifs with h1 h2
  · rfl
  · exfalso
    have hu : update_body gravity dt b = b := by rw [update_body, if_pos h]
    rw [hu] at h2
    exact absurd h2.1 (by simp [h])
  · rw [update_body, if_pos h]

theorem step_body_cases (gravity : Vector2) (dt : ℚ) (b : PhysicsBody) :
    step_body gravity dt b = b ∨
    (b.is_sleeping = false ∧ (step_body gravity dt b).is_sleeping = true ∧
      (step_body gravity dt b).velocity.length_squared
        < (step_body gravity dt b).sleep_threshold ∧
      (step_body gravity dt b).acceleration.length_squared
        < (step_body gravity dt b).sleep_threshold) ∨
    (b.is_sleeping = false ∧ (step_body gravity dt b).is_sleeping = false) := by
  rw [step_body]
  dsimp only
  split_ifs with h1 h2
  · exact Or.inl rfl
  · exact Or.inr (Or.inl ⟨by simpa using h1, rfl, h2.2.1, h2.2.2⟩)
  · refine Or.inr (Or.inr ⟨by simpa using h1, ?_⟩)
    rw [update_body]
    split_ifs <;> simpa using h1

/-- Every collision produced inside `update` points (on both sides) at
an awake, non-static body of the integrated list. -/
theorem update_collision_spec {bodies1 : List PhysicsBody} {c : CollisionInfo}
    (hc : c ∈ narrow_phase bodies1 (broad_phase_collision_pairs bodies1)) :
    (∃ a, bodies1.get? c.idx_a = some a ∧ a.is_sleeping = false ∧ a.is_static = false) ∧
    (∃ b, bodies1.get? c.idx_b = some b ∧ b.is_sleeping = false ∧ b.is_static = false) := by
  obtain ⟨p, hp, ha, hb⟩ := narrow_spec hc
  have hspec := broad_pairs_spec hp
  rw [ha, hb]
  exact hspec

end PhysicsSystem

/-- The sleeping-body invariant of the spec: a sleeping body's squared
velocity and acceleration are strictly below its sleep threshold. -/
def SleepInv (bodies : List PhysicsBody) : Prop :=
  ∀ b ∈ bodies, b.is_sleeping = true →
    b.velocity.length_squared < b.sleep_threshold ∧
    b.acceleration.length_squared < b.sleep_threshold

instance (bodies : List PhysicsBody) : Decidable (SleepInv bodies) := by
  unfold SleepInv; infer_instance

/-- C2: `update` preserves the sleeping-body invariant, and a sleeping
body is left entirely untouched by `update` — same entry, same
position, still asleep — since update's own collisions never involve a
sleeping body. -/
theorem sleeping_invariant_and_sleeping_frozen (gravity : Vector2) (dt : ℚ)
    (bodies : List PhysicsBody) (hinv : SleepInv bodies) :
    SleepInv (PhysicsSystem.update gravity dt bodies) ∧
    (∀ i b, bodies.get? i = some b → b.is_sleeping = true →
      (PhysicsSystem.update gravity dt bodies).get? i = some b) := by
  have hupdate : PhysicsSystem.update gravity dt bodies =
      (PhysicsSystem.narrow_phase (bodies.map (PhysicsSystem.step_body gravity dt))
        (PhysicsSystem.broad_phase_collision_pairs
          (bodies.map (PhysicsSystem.step_body gravity dt)))).foldl
        PhysicsSystem.resolve_collision
        (bodies.map (PhysicsSystem.step_body gravity dt)) := rfl
  have hfrozen : ∀ i b, bodies.get? i = some b → b.is_sleeping = true →
      (PhysicsSystem.update gravity dt bodies).get? i = some b := by
    intro i b hg hs
    have hg1 : (bodies.map (PhysicsSystem.step_body gravity dt)).get? i = some b := by
      rw [List.get?_map, hg, Option.map_some',
        PhysicsSystem.step_body_sleeping gravity dt b hs]
    rw [hupdate, PhysicsSystem.foldl_resolve_untouched _ _ _ ?hdisj]
    · exact hg1
    case hdisj =>
      intro c hc
      obtain ⟨⟨a, hga, hsa, -⟩, ⟨b2, hgb, hsb, -⟩⟩ :=
        PhysicsSystem.update_collision_spec hc
      constructor
      · rintro rfl
        rw [hg1] at hga
        obtain rfl := Option.some.inj hga
        simp [hs] at hsa
      · rintro rfl
        rw [hg1] at hgb
        obtain rfl := Option.some.inj hgb
        simp [hs] at hsb
  refine ⟨?_, hfrozen⟩
  intro b2 hmem hsleep
  obtain ⟨j, hj⟩ := List.get?_of_mem hmem
  rcases PhysicsSystem.foldl_resolve_wake
      (PhysicsSystem.narrow_phase (bodies.map (PhysicsSystem.step_body gravity dt))
        (PhysicsSystem.broad_phase_collision_pairs
          (bodies.map (PhysicsSystem.step_body gravity dt))))
      (bodies.map (PhysicsSystem.step_body gravity dt)) j with hw | ⟨b3, hb3, hs3⟩
  · rw [hupdate, hw, List.get?_map] at hj
    cases hg0 : bodies.get? j with
    | none => rw [hg0] at hj; cases hj
    | some b0 =>
        rw [hg0, Option.map_some'] at hj
        have hstep : PhysicsSystem.step_body gravity dt b0 = b2 := Option.some.inj hj
        rcases PhysicsSystem.step_body_cases gravity dt b0 with hcase | ⟨-, -, hv, ha⟩ |
            ⟨-, hawake⟩
        · have hb0 : b0 = b2 := hcase ▸ hstep
          have hb0mem : b0 ∈ bodies := List.get?_mem hg0
          have := hinv b0 hb0mem (hb0 ▸ hsleep)
          exact hb0 ▸ this
        · exact hstep ▸ ⟨hv, ha⟩
        · rw [hstep] at hawake
          simp [hawake] at hsleep
  · rw [hupdate] at hj
    rw [hj] at hb3
    obtain rfl := Option.some.inj hb3
    simp [hsleep] at hs3

/-- Witness for C2: a single sleeping body at rest keeps the invariant
and is untouched by an update step with gravity `(0, 980)` and
`dt = 1/60`. -/
theorem sleeping_invariant_and_sleeping_frozen_witness :
    SleepInv (PhysicsSystem.update ⟨0, 980⟩ (1/60)
      [{ PhysicsBody.init 0 0 10 10 with is_sleeping := true }]) ∧
    (PhysicsSystem.update ⟨0, 980⟩ (1/60)
      [{ PhysicsBody.init 0 0 10 10 with is_sleeping := true }]).get? 0 =
      some { PhysicsBody.init 0 0 10 10 with is_sleeping := true } :=
  ⟨(sleeping_invariant_and_sleeping_frozen ⟨0, 980⟩ (1/60)
      [{ PhysicsBody.init 0 0 10 10 with is_sleeping := true }]
      (by
        intro b hb hs
        simp only [List.mem_singleton] at hb
        subst hb
        norm_num [PhysicsBody.init, Vector2.length_squared])).1,
   (sleeping_invariant_and_sleeping_frozen ⟨0, 980⟩ (1/60)
      [{ PhysicsBody.init 0 0 10 10 with is_sleeping := true }]
      (by
        intro b hb hs
        simp only [List.mem_singleton] at hb
        subst hb
        norm_num [PhysicsBody.init, Vector2.length_squared])).2 0 _ rfl rfl⟩

/-- C8: static and sleeping bodies are never inserted into the spatial
hash; every broad-phase pair and narrow-phase collision of `update`
involves only awake, non-static bodies; consequently a static body is
completely untouched by `update` (the static positional-correction
branches are unreachable from it), and a sleeping body is never woken
by a collision `update` itself detects. -/
theorem static_and_sleeping_excluded (gravity : Vector2) (dt : ℚ)
    (bodies : List PhysicsBody) :
    (∀ e, PhysicsSystem.cellMem e
        (PhysicsSystem.build_spatial_hash
          (bodies.map (PhysicsSystem.step_body gravity dt))) →
      e.2.is_sleeping = false ∧ e.2.is_static = false) ∧
    (∀ c ∈ PhysicsSystem.narrow_phase
        (bodies.map (PhysicsSystem.step_body gravity dt))
        (PhysicsSystem.broad_phase_collision_pairs
          (bodies.map (PhysicsSystem.step_body gravity dt))),
      (∃ a, (bodies.map (PhysicsSystem.step_body gravity dt)).get? c.idx_a = some a ∧
        a.is_sleeping = false ∧ a.is_static = false) ∧
      (∃ b, (bodies.map (PhysicsSystem.step_body gravity dt)).get? c.idx_b = some b ∧
        b.is_sleeping = false ∧ b.is_static = false)) ∧
    (∀ i b, bodies.get? i = some b → b.is_static = true →
      (PhysicsSystem.update gravity dt bodies).get? i = some b) ∧
    (∀ i b, bodies.get? i = some b → b.is_sleeping = true →
      (PhysicsSystem.update gravity dt bodies).get? i = some b) := by
  have hupdate : PhysicsSystem.update gravity dt bodies =
      (PhysicsSystem.narrow_phase (bodies.map (PhysicsSystem.step_body gravity dt))
        (PhysicsSystem.broad_phase_collision_pairs
          (bodies.map (PhysicsSystem.step_body gravity dt)))).foldl
        PhysicsSystem.resolve_collision
        (bodies.map (PhysicsSystem.step_body gravity dt)) := rfl
  refine ⟨?_, ?_, ?_, ?_⟩
  · intro e he
    exact (PhysicsSystem.cellMem_build he).2
  · intro c hc
    exact PhysicsSystem.update_collision_spec hc
  · intro i b hg hstatic
    have hg1 : (bodies.map (PhysicsSystem.step_body gravity dt)).get? i = some b := by
      rw [List.get?_map, hg, Option.map_some',
        PhysicsSystem.step_body_static gravity dt b hstatic]
    rw [hupdate, PhysicsSystem.foldl_resolve_untouched _ _ _ ?hd]
    · exact hg1
    case hd =>
      intro c hc
      obtain ⟨⟨a, hga, -, hsa⟩, ⟨b2, hgb, -, hsb⟩⟩ :=
        PhysicsSystem.update_collision_spec hc
      constructor
      · rintro rfl
        rw [hg1] at hga
        obtain rfl := Option.some.inj hga
        simp [hstatic] at hsa
      · rintro rfl
        rw [hg1] at hgb
        obtain rfl := Option.some.inj hgb
        simp [hstatic] at hsb
  · intro i b hg hs
    have hg1 : (bodies.map (PhysicsSystem.step_body gravity dt)).get? i = some b := by
      rw [List.get?_map, hg, Option.map_some',
        PhysicsSystem.step_body_sleeping gravity dt b hs]
    rw [hupdate, PhysicsSystem.foldl_resolve_untouched _ _ _ ?hd2]
    · exact hg1
    case hd2 =>
      intro c hc
      obtain ⟨⟨a, hga, hsa, -⟩, ⟨b2, hgb, hsb, -⟩⟩ :=
        PhysicsSystem.update_collision_spec hc
      constructor
      · rintro rfl
        rw [hg1] at hga
        obtain rfl := Option.some.inj hga
        simp [hs] at hsa
      · rintro rfl
        rw [hg1] at hgb
        obtain rfl := Option.some.inj hgb
        simp [hs] at hsb

/-- Witness for C8: a static floor and a separate sleeping body are
both left exactly in place by an update step. -/
theorem static_and_sleeping_excluded_witness :
    (PhysicsSystem.update ⟨0, 980⟩ (1/60)
      [{ PhysicsBody.init 0 0 10 10 with is_static := true },
       { PhysicsBody.init 100 0 10 10 with is_sleeping := true }]).get? 0 =
      some { PhysicsBody.init 0 0 10 10 with is_static := true } ∧
    (PhysicsSystem.update ⟨0, 980⟩ (1/60)
      [{ PhysicsBody.init 0 0 10 10 with is_static := true },
       { PhysicsBody.init 100 0 10 10 with is_sleeping := true }]).get? 1 =
      some { PhysicsBody.init 100 0 10 10 with is_sleeping := true } :=
  ⟨(static_and_sleeping_excluded ⟨0, 980⟩ (1/60)
      [{ PhysicsBody.init 0 0 10 10 with is_static := true },
       { PhysicsBody.init 100 0 10 10 with is_sleeping := true }]).2.2.1 0 _ rfl rfl,
   (static_and_sleeping_excluded ⟨0, 980⟩ (1/60)
      [{ PhysicsBody.init 0 0 10 10 with is_static := true },
       { PhysicsBody.init 100 0 10 10 with is_sleeping := true }]).2.2.2 1 _ rfl rfl⟩

end RoundsModel
